import Mathlib

/-!
Verification of the VaultCraft backup/restore and packaging subsystem
(`src-tauri/src/services/backup.rs`, with collaborators from
`src-tauri/src/db/{models,queries,migrations}.rs`).

The Rust code is shallowly embedded: byte streams are `List Nat`, a ZIP
archive is its ordered list of named entries, the live filesystem state
relevant to the subsystem is an explicit record, and the external crates
(sha2, serde_json, uuid, chrono) are abstracted as an `Ambiente` record of
functions, since no property below depends on their internals, only on the
values they return.  Fallible filesystem writes and zip-entry reads are
injected through an oracle record `FS`, mirroring the `Result`-returning
`std::fs` calls.  Database queries are modelled on an explicit record
store, mirroring the SQL in `db/queries.rs`.
-/

set_option autoImplicit false

namespace VaultCraft

/-- Raw byte streams (`Vec<u8>` / `&[u8]`). -/
abbrev Bytes := List Nat

/-- A ZIP archive, as its ordered list of `(entry name, entry bytes)` pairs.
The order is the order entries were written (`ZipWriter` appends; the
restore loop iterates `0..zip.len()` in this order). -/
abbrev Zip := List (String × Bytes)

/-- `HashMap<String, String>` as an association list; insertion conses, so
the first match is the most recently inserted binding, matching
`HashMap::insert` overwrite semantics for lookups. -/
abbrev Mapa := List (String × String)

/-- `str::starts_with`, via the character lists underlying the strings. -/
def comecaCom (p s : String) : Bool :=
  p.data.isPrefixOf s.data

/-- `str::ends_with` (used for `ZipFile::is_dir`, which checks a trailing
separator on the entry name). -/
def terminaCom (p s : String) : Bool :=
  p.data.isSuffixOf s.data

/-- Dropping the first `n` characters of a string; models
`str::strip_prefix` once `starts_with` is known (`"anexos/"` has 7
characters). -/
def soltar (s : String) (n : Nat) : String :=
  ⟨s.data.drop n⟩

/-- `HashMap::get` / first-match lookup in an association list. -/
def buscar {α : Type} (m : List (String × α)) (k : String) : Option α :=
  (m.find? (fun e => e.1 = k)).map (·.2)

/-- `HashMap::insert` for lookups: the new binding shadows any older one. -/
def inserir {α : Type} (m : List (String × α)) (k : String) (v : α) :
    List (String × α) :=
  (k, v) :: m

/-- `ZipArchive::by_name`: the bytes of the entry with the given name. -/
def porNome (zip : Zip) (nome : String) : Option Bytes :=
  buscar zip nome

-- =============================================================================
-- Data model (db/models.rs)
-- =============================================================================

/-- `models::TipoItem`. -/
inductive TipoItem where
  | nota
  | documento
  | checklist
deriving Repr, DecidableEq

/-- `TipoItem::de_str`: unrecognised values default to `Nota`. -/
def TipoItem.de_str (valor : String) : TipoItem :=
  if valor = "nota" then .nota
  else if valor = "documento" then .documento
  else if valor = "checklist" then .checklist
  else .nota

/-- The `Display` impl for `TipoItem`. -/
def TipoItem.paraTexto : TipoItem → String
  | .nota => "nota"
  | .documento => "documento"
  | .checklist => "checklist"

/-- `models::Pasta`. -/
structure Pasta where
  id : String
  pasta_pai_id : Option String
  nome : String
  caminho : String
  criado_em : String
  atualizado_em : String
deriving Repr, DecidableEq

/-- `models::Tag`. -/
structure Tag where
  id : String
  nome : String
  cor : String
  criado_em : String
deriving Repr, DecidableEq

/-- `models::Anexo`. -/
structure Anexo where
  id : String
  item_id : Option String
  tarefa_id : Option String
  nome_original : String
  caminho_interno : String
  tamanho : Int
  tipo_mime : String
  hash_sha256 : Option String
  criado_em : String
deriving Repr, DecidableEq

/-- `models::Item` (tags and anexos are the separately-loaded lists). -/
structure Item where
  id : String
  pasta_id : String
  tipo : TipoItem
  titulo : String
  descricao : Option String
  conteudo_nota : Option String
  data_vencimento : Option String
  criado_em : String
  atualizado_em : String
  tags : List Tag
  anexos : List Anexo
deriving Repr, DecidableEq

/-- `models::NovaPasta` (creation DTO). -/
structure NovaPasta where
  nome : String
  pasta_pai_id : Option String
deriving Repr, DecidableEq

/-- `models::NovoItem` (creation DTO). -/
structure NovoItem where
  pasta_id : String
  tipo : TipoItem
  titulo : String
  descricao : Option String
  conteudo_nota : Option String
  data_vencimento : Option String
  tag_ids : Option (List String)
deriving Repr, DecidableEq

/-- `models::ManifestoBackup`: the manifest record serialized as
`manifesto.json` inside every archive. -/
structure ManifestoBackup where
  versao_app : String
  versao_schema : Int
  data : String
  total_itens : Int
  total_anexos : Int
  hash_banco : String
  hashes_anexos : Mapa
deriving Repr, DecidableEq

-- =============================================================================
-- Migrations (db/migrations.rs)
-- =============================================================================

/-- The version column of `migrations::MIGRACOES`; the SQL body of each
migration is irrelevant to the backup subsystem and elided (marked by the
constant name of the Rust source). -/
def MIGRACOES : List (Int × String) :=
  [(1, "MIGRACAO_001"), (2, "MIGRACAO_002")]

/-- `migrations::versao_mais_recente`:
`MIGRACOES.last().map(|&(versao, _)| versao).unwrap_or(0)`. -/
def versao_mais_recente : Int :=
  ((MIGRACOES.getLast?).map (·.1)).getD 0

-- =============================================================================
-- The folder-package data document (dados.json), as read by importar_pacote
-- =============================================================================

/-- One element of an item's `anexos` array in `dados.json`, as the
loosely-typed JSON accesses in `importar_pacote` see it: each field read
with `.as_str()` may be absent. -/
structure AnexoDoc where
  caminho_interno : Option String
  nome_original : Option String
  tipo_mime : Option String
deriving Repr, DecidableEq

/-- One element of the `itens` array in `dados.json`. -/
structure ItemDoc where
  tipo : Option String
  titulo : Option String
  descricao : Option String
  conteudo_nota : Option String
  data_vencimento : Option String
  anexos : Option (List AnexoDoc)
deriving Repr, DecidableEq

/-- The parse of `dados.json`: the fields of `dados["pasta"]` and the
`dados["itens"]` array that `importar_pacote` reads. -/
structure DadosPasta where
  pasta_nome : Option String
  pasta_pai_id : Option String
  itens : Option (List ItemDoc)
deriving Repr, DecidableEq

-- =============================================================================
-- External collaborators and state
-- =============================================================================

/-- The external crates consumed by the subsystem, abstracted as functions:
SHA-256 hex digests (`sha2` + `hex`), serde_json codecs for the manifest and
for the folder-package data document, the cargo package version
(`env!("CARGO_PKG_VERSION")`), the formatted clock (`chrono::Utc::now`), and
`Uuid::new_v4` as a supply of identifiers indexed by how many have been
drawn.  No claim depends on the internals of these crates, only on the
values they return. -/
structure Ambiente where
  hash : Bytes → String
  agora : String
  versao_cargo : String
  serializarManifesto : ManifestoBackup → Bytes
  parseManifesto : Bytes → Option ManifestoBackup
  serializarDados : Pasta → List Item → Bytes
  parseDados : Bytes → Option DadosPasta
  uuid : Nat → String

/-- `backup::calcular_hash_bytes` (SHA-256 of a byte slice, hex encoded);
the digest function itself lives in the `Ambiente`. -/
def calcular_hash_bytes (env : Ambiente) (dados : Bytes) : String :=
  env.hash dados

/-- The live on-disk state the backup subsystem touches:
the database file `vaultcraft.db` (`none` when absent), the attachments
tree under `storage/anexos` as a map from internal relative path to bytes,
and the archives created in the `backups_automaticos` directory. -/
structure Estado where
  banco : Option Bytes
  anexos : List (String × Bytes)
  backupsAutomaticos : List Zip
deriving Repr, DecidableEq

/-- Failure-injection oracle for the fallible filesystem and zip-entry
operations (`fs::write`, `ZipFile::read_to_end`), keyed by the path or
entry name the Rust code passes. -/
structure FS where
  falhaEscrita : String → Bool
  falhaLeituraEntrada : String → Bool

/-- The read side of the database connection as consumed by backup and
export: `listar_caminhos_anexos`, `contar_itens`, `contar_anexos`,
the `pastas` table (for `obter_pasta_por_id`), and
`listar_itens_completos_da_pasta` as an opaque query. -/
structure Conexao where
  caminhosAnexos : List String
  totalItens : Int
  totalAnexos : Int
  pastas : List Pasta
  itensCompletosDaPasta : String → List Item

/-- The error cases surfaced by the subsystem (each `anyhow` context
message or `bail!` in `backup.rs`, plus the query-layer errors it
propagates). -/
inductive Erro where
  | arquivoInvalido
  | manifestoNaoEncontrado
  | manifestoIlegivel
  | falhaLerBanco
  | bancoNaoEncontrado
  | falhaLerBancoDoZip
  | hashBancoNaoConfere (esperado obtido : String)
  | falhaEscreverBanco
  | falhaLerAnexoDoZip (nome : String)
  | falhaRestaurarAnexo (caminho : String)
  | dadosNaoEncontrados
  | dadosIlegiveis
  | pastaNaoEncontrada (id : String)
deriving Repr, DecidableEq

/-- Outcome of `restaurar_backup`: the error (if any), the final live
state, and the hash-mismatch warnings logged for attachments, each as
`(caminho_relativo, esperado, obtido)`. -/
structure Saida where
  erro : Option Erro
  estado : Estado
  avisos : List (String × String × String)
deriving Repr, DecidableEq

-- =============================================================================
-- Backup creation (backup::criar_backup)
-- =============================================================================

/-- The body of the attachment loop in `criar_backup` (and, composed with
`Anexo.caminho_interno`, of the one in `exportar_pacote_pasta`): if the
attachment file exists on disk it is read, hashed into the manifest map,
and appended to the archive under the `anexos/` prefix; otherwise it is
skipped. -/
def passoAnexo (env : Ambiente) (estado : Estado) (acc : Zip × Mapa)
    (caminho_interno : String) : Zip × Mapa :=
  match buscar estado.anexos caminho_interno with
  | some conteudo =>
      (acc.1 ++ [("anexos/" ++ caminho_interno, conteudo)],
       inserir acc.2 caminho_interno (calcular_hash_bytes env conteudo))
  | none => acc

/-- `backup::criar_backup`: read the database file, hash it, write it as
`banco.sqlite`, add each attachment present on disk under `anexos/`, and
write the manifest as the final entry.  Returns the archive content; the
destination file name (timestamped) does not matter to any claim and is
dropped. -/
def criar_backup (env : Ambiente) (conexao : Conexao) (estado : Estado) :
    Except Erro Zip :=
  match estado.banco with
  | none => .error .falhaLerBanco
  | some conteudo_banco =>
    let hash_banco := calcular_hash_bytes env conteudo_banco
    let inicial : Zip × Mapa := ([("banco.sqlite", conteudo_banco)], [])
    let resultado := conexao.caminhosAnexos.foldl (passoAnexo env estado) inicial
    let manifesto : ManifestoBackup :=
      { versao_app := env.versao_cargo
        versao_schema := versao_mais_recente
        data := env.agora
        total_itens := conexao.totalItens
        total_anexos := conexao.totalAnexos
        hash_banco := hash_banco
        hashes_anexos := resultado.2 }
    .ok (resultado.1 ++ [("manifesto.json", env.serializarManifesto manifesto)])

-- =============================================================================
-- Restore (backup::restaurar_backup)
-- =============================================================================

/-- `backup::ler_manifesto_do_zip`: find the `manifesto.json` entry, read it
as a string and deserialize it; a read or deserialization failure is the
`manifestoIlegivel` case. -/
def ler_manifesto_do_zip (env : Ambiente) (zip : Zip) :
    Except Erro ManifestoBackup :=
  match porNome zip "manifesto.json" with
  | none => .error .manifestoNaoEncontrado
  | some conteudo =>
    match env.parseManifesto conteudo with
    | none => .error .manifestoIlegivel
    | some manifesto => .ok manifesto

/-- The attachment-extraction loop of `restaurar_backup` (`for i in
0..zip.len()`): every non-directory entry under `anexos/` is read, checked
against the manifest digest when one is recorded (a mismatch only logs a
warning), and written to the attachments directory; a failing entry read
or file write propagates as an error, ending the loop. -/
def restaurarAnexos (env : Ambiente) (sistema : FS) (manifesto : ManifestoBackup) :
    List (String × Bytes) → Estado → List (String × String × String) → Saida
  | [], estado, avisos => ⟨none, estado, avisos⟩
  | (nome, dadosEntrada) :: resto, estado, avisos =>
    if comecaCom "anexos/" nome && !(terminaCom "/" nome) then
      let caminho_relativo := soltar nome 7
      if sistema.falhaLeituraEntrada nome then
        ⟨some (.falhaLerAnexoDoZip nome), estado, avisos⟩
      else
        let avisos' :=
          match buscar manifesto.hashes_anexos caminho_relativo with
          | some esperado =>
            let obtido := calcular_hash_bytes env dadosEntrada
            if obtido ≠ esperado then
              avisos ++ [(caminho_relativo, esperado, obtido)]
            else avisos
          | none => avisos
        if sistema.falhaEscrita ("storage/anexos/" ++ caminho_relativo) then
          ⟨some (.falhaRestaurarAnexo caminho_relativo), estado, avisos'⟩
        else
          restaurarAnexos env sistema manifesto resto
            { estado with anexos := inserir estado.anexos caminho_relativo dadosEntrada }
            avisos'
    else
      restaurarAnexos env sistema manifesto resto estado avisos

/-- `backup::restaurar_backup`: open the archive (`none` models a file that
cannot be opened or is not a valid ZIP), read and parse the manifest,
attempt the automatic safety backup (failure logged, not propagated),
extract `banco.sqlite`, verify its digest against the manifest, overwrite
the live database file, wipe and recreate the attachments directory, and
extract every `anexos/` entry. -/
def restaurar_backup (env : Ambiente) (sistema : FS) (conexao : Conexao)
    (arquivo : Option Zip) (estado : Estado) : Saida :=
  match arquivo with
  | none => ⟨some .arquivoInvalido, estado, []⟩
  | some zip =>
    match ler_manifesto_do_zip env zip with
    | .error e => ⟨some e, estado, []⟩
    | .ok manifesto =>
      let estado1 :=
        match criar_backup env conexao estado with
        | .ok backupAuto =>
            { estado with
              backupsAutomaticos := estado.backupsAutomaticos ++ [backupAuto] }
        | .error _ => estado
      match porNome zip "banco.sqlite" with
      | none => ⟨some .bancoNaoEncontrado, estado1, []⟩
      | some conteudo_banco =>
        if sistema.falhaLeituraEntrada "banco.sqlite" then
          ⟨some .falhaLerBancoDoZip, estado1, []⟩
        else
          let hash_banco := calcular_hash_bytes env conteudo_banco
          if hash_banco ≠ manifesto.hash_banco then
            ⟨some (.hashBancoNaoConfere manifesto.hash_banco hash_banco), estado1, []⟩
          else if sistema.falhaEscrita "vaultcraft.db" then
            ⟨some .falhaEscreverBanco, estado1, []⟩
          else
            restaurarAnexos env sistema manifesto zip
              { estado1 with banco := some conteudo_banco, anexos := [] } []

-- =============================================================================
-- Folder export (backup::exportar_pacote_pasta)
-- =============================================================================

/-- `queries::obter_pasta_por_id`: `query_row` on the `pastas` table,
failing when no row has the given id. -/
def obter_pasta_por_id (pastas : List Pasta) (id : String) : Except Erro Pasta :=
  match pastas.find? (fun p => p.id = id) with
  | some pasta => .ok pasta
  | none => .error (.pastaNaoEncontrada id)

/-- `backup::exportar_pacote_pasta`: fetch the folder and its complete item
set, write them as the `dados.json` document, add each referenced
attachment present on disk under `anexos/`, and write the manifest (with
empty `hash_banco`) as the final entry.  `total_anexos` is
`hashes_anexos.len()`, which the association-list length matches whenever
the exported attachment paths are distinct. -/
def exportar_pacote_pasta (env : Ambiente) (conexao : Conexao)
    (pasta_id : String) (estado : Estado) : Except Erro Zip :=
  match obter_pasta_por_id conexao.pastas pasta_id with
  | .error e => .error e
  | .ok pasta =>
    let itens := conexao.itensCompletosDaPasta pasta_id
    let inicial : Zip × Mapa := ([("dados.json", env.serializarDados pasta itens)], [])
    let resultado := itens.foldl
      (fun acc item => item.anexos.foldl
        (fun acc anexo => passoAnexo env estado acc anexo.caminho_interno) acc)
      inicial
    let manifesto : ManifestoBackup :=
      { versao_app := env.versao_cargo
        versao_schema := versao_mais_recente
        data := env.agora
        total_itens := (itens.length : Int)
        total_anexos := (resultado.2.length : Int)
        hash_banco := ""
        hashes_anexos := resultado.2 }
    .ok (resultado.1 ++ [("manifesto.json", env.serializarManifesto manifesto)])

-- =============================================================================
-- Folder import (backup::importar_pacote) and the queries it mutates
-- =============================================================================

/-- The write side of the database as import sees it: the `pastas`,
`itens` and `anexos` tables, each as the ordered list of inserted rows. -/
structure Cofre where
  pastas : List Pasta
  itens : List Item
  anexos : List Anexo
deriving Repr, DecidableEq

/-- All primary-key identities present in the vault. -/
def usadosIds (cofre : Cofre) : List String :=
  cofre.pastas.map Pasta.id ++ cofre.itens.map Item.id ++ cofre.anexos.map Anexo.id

/-- `queries::criar_pasta`: draw a fresh UUID, compute the full path from
the parent folder (failing if a given parent id does not exist), insert
the row, and return it.  The UUID is drawn before the parent lookup, as in
the source, so the supply advances even on failure. -/
def criar_pasta (env : Ambiente) (cofre : Cofre) (g : Nat) (dados : NovaPasta) :
    Except Erro (Pasta × Cofre) × Nat :=
  let id := env.uuid g
  let agora := env.agora
  let caminhoE : Except Erro String :=
    match dados.pasta_pai_id with
    | some pai_id =>
      match obter_pasta_por_id cofre.pastas pai_id with
      | .error e => .error e
      | .ok pai =>
        .ok (if pai.caminho = "/" then "/" ++ dados.nome
             else pai.caminho ++ "/" ++ dados.nome)
    | none => .ok ("/" ++ dados.nome)
  match caminhoE with
  | .error e => (.error e, g + 1)
  | .ok caminho =>
    let pasta : Pasta :=
      { id := id, pasta_pai_id := dados.pasta_pai_id, nome := dados.nome,
        caminho := caminho, criado_em := agora, atualizado_em := agora }
    (.ok (pasta, { cofre with pastas := cofre.pastas ++ [pasta] }), g + 1)

/-- `queries::criar_item`: draw a fresh UUID, insert the row, and return
the created item.  The import path always passes `tag_ids = none`, so the
tag-linking branch is inert and the `item_tags` table is not modelled. -/
def criar_item (env : Ambiente) (cofre : Cofre) (g : Nat) (dados : NovoItem) :
    Item × Cofre × Nat :=
  let id := env.uuid g
  let agora := env.agora
  let item : Item :=
    { id := id, pasta_id := dados.pasta_id, tipo := dados.tipo,
      titulo := dados.titulo, descricao := dados.descricao,
      conteudo_nota := dados.conteudo_nota,
      data_vencimento := dados.data_vencimento,
      criado_em := agora, atualizado_em := agora, tags := [], anexos := [] }
  (item, { cofre with itens := cofre.itens ++ [item] }, g + 1)

/-- `queries::criar_anexo`: insert the caller-supplied attachment row. -/
def criar_anexo (cofre : Cofre) (anexo : Anexo) : Cofre :=
  { cofre with anexos := cofre.anexos ++ [anexo] }

/-- The inner loop of `importar_pacote` over one item's `anexos` array:
entries with an empty or absent `caminho_interno`, or whose bytes are not
in the archive, are skipped; otherwise the bytes are written under a fresh
UUID directory in the attachment store and a new `Anexo` row is created. -/
def importarAnexosDoItem (env : Ambiente) (zip : Zip) (itemId : String) :
    List AnexoDoc → Cofre → List (String × Bytes) → Nat →
    Cofre × List (String × Bytes) × Nat
  | [], cofre, arquivos, g => (cofre, arquivos, g)
  | doc :: resto, cofre, arquivos, g =>
    let caminho_interno_original := doc.caminho_interno.getD ""
    if caminho_interno_original ≠ "" then
      match porNome zip ("anexos/" ++ caminho_interno_original) with
      | some conteudo =>
        let id_anexo := env.uuid g
        let nome_original := doc.nome_original.getD "arquivo"
        let arquivos' := inserir arquivos (id_anexo ++ "/" ++ nome_original) conteudo
        let hash := calcular_hash_bytes env conteudo
        let anexo : Anexo :=
          { id := id_anexo, item_id := some itemId, tarefa_id := none,
            nome_original := nome_original,
            caminho_interno := id_anexo ++ "/" ++ nome_original,
            tamanho := (conteudo.length : Int),
            tipo_mime := doc.tipo_mime.getD "application/octet-stream",
            hash_sha256 := some hash, criado_em := env.agora }
        importarAnexosDoItem env zip itemId resto (criar_anexo cofre anexo)
          arquivos' (g + 1)
      | none => importarAnexosDoItem env zip itemId resto cofre arquivos g
    else importarAnexosDoItem env zip itemId resto cofre arquivos g

/-- The loop of `importar_pacote` over the `itens` array: each document
item is created as a new item of the destination folder, then its
attachments are imported. -/
def importarItens (env : Ambiente) (zip : Zip) (pastaId : String) :
    List ItemDoc → Cofre → List (String × Bytes) → Nat →
    Cofre × List (String × Bytes) × Nat
  | [], cofre, arquivos, g => (cofre, arquivos, g)
  | doc :: resto, cofre, arquivos, g =>
    let novo : NovoItem :=
      { pasta_id := pastaId, tipo := TipoItem.de_str (doc.tipo.getD "nota"),
        titulo := doc.titulo.getD "Sem título", descricao := doc.descricao,
        conteudo_nota := doc.conteudo_nota,
        data_vencimento := doc.data_vencimento, tag_ids := none }
    let r1 := criar_item env cofre g novo
    let r2 :=
      match doc.anexos with
      | some docs => importarAnexosDoItem env zip r1.1.id docs r1.2.1 arquivos r1.2.2
      | none => (r1.2.1, arquivos, r1.2.2)
    importarItens env zip pastaId resto r2.1 r2.2.1 r2.2.2

/-- Outcome of `importar_pacote`: the error (if any), the database state,
the attachment store (map from internal relative path to bytes), and the
next index of the UUID supply. -/
structure SaidaImportacao where
  erro : Option Erro
  cofre : Cofre
  arquivos : List (String × Bytes)
  proximoUuid : Nat
deriving Repr, DecidableEq

/-- `backup::importar_pacote`: open the archive, read and parse
`dados.json`, create the destination folder (original name plus the fixed
" (importado)" marker), then import every item and its attachments. -/
def importar_pacote (env : Ambiente) (arquivo : Option Zip) (cofre : Cofre)
    (arquivos : List (String × Bytes)) (g : Nat) : SaidaImportacao :=
  match arquivo with
  | none => ⟨some .arquivoInvalido, cofre, arquivos, g⟩
  | some zip =>
    match porNome zip "dados.json" with
    | none => ⟨some .dadosNaoEncontrados, cofre, arquivos, g⟩
    | some conteudo =>
      match env.parseDados conteudo with
      | none => ⟨some .dadosIlegiveis, cofre, arquivos, g⟩
      | some dados =>
        let nome_pasta_original := dados.pasta_nome.getD "Pasta Importada"
        let nome_pasta := nome_pasta_original ++ " (importado)"
        let nova : NovaPasta := ⟨nome_pasta, dados.pasta_pai_id⟩
        match criar_pasta env cofre g nova with
        | (.error e, g') => ⟨some e, cofre, arquivos, g'⟩
        | (.ok (pasta_criada, cofre'), g') =>
          let r :=
            match dados.itens with
            | some docs => importarItens env zip pasta_criada.id docs cofre' arquivos g'
            | none => (cofre', arquivos, g')
          ⟨none, r.1, r.2.1, r.2.2⟩

-- =============================================================================
-- Helper lemmas: strings
-- =============================================================================

theorem string_data_append (a b : String) : (a ++ b).data = a.data ++ b.data :=
  String.data_append a b

theorem comecaCom_append (p r : String) : comecaCom p (p ++ r) = true := by
  simp only [comecaCom, string_data_append]
  exact List.isPrefixOf_iff_prefix.mpr (List.prefix_append _ _)

theorem soltar_append (p r : String) : soltar (p ++ r) p.data.length = r := by
  apply String.ext
  simp only [soltar, string_data_append]
  exact List.drop_left _ _

theorem comecaCom_recompoe {p s : String} (h : comecaCom p s = true) :
    p ++ soltar s p.data.length = s := by
  obtain ⟨t, ht⟩ := List.isPrefixOf_iff_prefix.mp h
  apply String.ext
  simp only [string_data_append, soltar, ← ht]
  exact congrArg (p.data ++ ·) (List.drop_left _ _)

theorem append_ne_de_nao_comeca {p t : String} (r : String)
    (h : comecaCom p t = false) : p ++ r ≠ t := by
  intro he
  rw [← he, comecaCom_append] at h
  exact Bool.noConfusion h

theorem string_append_cancela {p a b : String} (h : p ++ a = p ++ b) : a = b := by
  apply String.ext
  have := congrArg String.data h
  simp only [string_data_append] at this
  exact List.append_cancel_left this

-- =============================================================================
-- Helper lemmas: association-list maps
-- =============================================================================

theorem buscar_cons {α : Type} (e : String × α) (m : List (String × α)) (k : String) :
    buscar (e :: m) k = if e.1 = k then some e.2 else buscar m k := by
  by_cases h : e.1 = k <;> simp [buscar, List.find?_cons, h]

theorem buscar_inserir_mesmo {α : Type} (m : List (String × α)) (k : String) (v : α) :
    buscar (inserir m k v) k = some v := by
  simp [inserir, buscar_cons]

theorem buscar_inserir_outro {α : Type} (m : List (String × α)) (k k' : String) (v : α)
    (h : k ≠ k') : buscar (inserir m k v) k' = buscar m k' := by
  simp [inserir, buscar_cons, h]

-- =============================================================================
-- Helper lemmas: the restore attachment loop
-- =============================================================================

theorem restaurarAnexos_banco (env : Ambiente) (sistema : FS)
    (manifesto : ManifestoBackup) (l : List (String × Bytes)) :
    ∀ (estado : Estado) (avisos : List (String × String × String)),
      (restaurarAnexos env sistema manifesto l estado avisos).estado.banco =
        estado.banco := by
  induction l with
  | nil => intro estado avisos; rfl
  | cons cabeca resto ih =>
    intro estado avisos
    obtain ⟨nome, dados⟩ := cabeca
    simp only [restaurarAnexos]
    split
    · split
      · rfl
      · split
        · rfl
        · exact ih _ _
    · exact ih _ _

theorem restaurarAnexos_backups (env : Ambiente) (sistema : FS)
    (manifesto : ManifestoBackup) (l : List (String × Bytes)) :
    ∀ (estado : Estado) (avisos : List (String × String × String)),
      (restaurarAnexos env sistema manifesto l estado avisos).estado.backupsAutomaticos =
        estado.backupsAutomaticos := by
  induction l with
  | nil => intro estado avisos; rfl
  | cons cabeca resto ih =>
    intro estado avisos
    obtain ⟨nome, dados⟩ := cabeca
    simp only [restaurarAnexos]
    split
    · split
      · rfl
      · split
        · rfl
        · exact ih _ _
    · exact ih _ _

theorem restaurarAnexos_sem_falha (env : Ambiente) (sistema : FS)
    (manifesto : ManifestoBackup) (l : List (String × Bytes))
    (hE : ∀ p, sistema.falhaEscrita p = false)
    (hL : ∀ n, sistema.falhaLeituraEntrada n = false) :
    ∀ (estado : Estado) (avisos : List (String × String × String)),
      (restaurarAnexos env sistema manifesto l estado avisos).erro = none := by
  induction l with
  | nil => intro estado avisos; rfl
  | cons cabeca resto ih =>
    intro estado avisos
    obtain ⟨nome, dados⟩ := cabeca
    simp only [restaurarAnexos, hE, hL]
    split
    · simp only [hE, hL, Bool.false_eq_true, if_false]
      exact ih _ _
    · exact ih _ _

theorem restaurarAnexos_avisos_mono (env : Ambiente) (sistema : FS)
    (manifesto : ManifestoBackup) (l : List (String × Bytes)) :
    ∀ (estado : Estado) (avisos : List (String × String × String))
      (w : String × String × String), w ∈ avisos →
      w ∈ (restaurarAnexos env sistema manifesto l estado avisos).avisos := by
  induction l with
  | nil => intro estado avisos w hw; exact hw
  | cons cabeca resto ih =>
    intro estado avisos w hw
    obtain ⟨nome, dados⟩ := cabeca
    simp only [restaurarAnexos]
    split
    · split
      · exact hw
      · have hw' : ∀ avisos',
            (avisos' = avisos ∨ ∃ x, avisos' = avisos ++ [x]) → w ∈ avisos' := by
          rintro avisos' (rfl | ⟨x, rfl⟩)
          · exact hw
          · exact List.mem_append_left _ hw
        split
        · apply hw'
          split
          · split
            · right; exact ⟨_, rfl⟩
            · left; rfl
          · left; rfl
        · apply ih
          apply hw'
          split
          · split
            · right; exact ⟨_, rfl⟩
            · left; rfl
          · left; rfl
    · exact ih _ _ _ hw

theorem anexos_data_length : ("anexos/" : String).data.length = 7 := rfl

theorem anexos_recompoe {s : String} (h : comecaCom "anexos/" s = true) :
    "anexos/" ++ soltar s 7 = s := by
  have h' := comecaCom_recompoe h
  rwa [anexos_data_length] at h'

theorem restaurarAnexos_preserva_busca (env : Ambiente) (sistema : FS)
    (manifesto : ManifestoBackup) (l : List (String × Bytes)) (rel : String)
    (h : ∀ nome dados, (nome, dados) ∈ l → comecaCom "anexos/" nome = true →
         terminaCom "/" nome = false → soltar nome 7 ≠ rel) :
    ∀ (estado : Estado) (avisos : List (String × String × String)),
      buscar (restaurarAnexos env sistema manifesto l estado avisos).estado.anexos rel =
        buscar estado.anexos rel := by
  induction l with
  | nil => intro estado avisos; rfl
  | cons cabeca resto ih =>
    intro estado avisos
    obtain ⟨nome, dados⟩ := cabeca
    have hresto : ∀ nome' dados', (nome', dados') ∈ resto →
        comecaCom "anexos/" nome' = true → terminaCom "/" nome' = false →
        soltar nome' 7 ≠ rel := by
      intro nome' dados' hm
      exact h nome' dados' (List.mem_cons_of_mem _ hm)
    simp only [restaurarAnexos]
    split
    · rename_i hforma
      have hforma' := Bool.and_eq_true .. |>.mp hforma
      have h1 : comecaCom "anexos/" nome = true := hforma'.1
      have h2 : terminaCom "/" nome = false := by
        have := hforma'.2
        simpa using this
      split
      · rfl
      · split
        · rfl
        · rw [ih hresto]
          exact buscar_inserir_outro _ _ _ _
            (h nome dados (List.mem_cons_self _ _) h1 h2)
    · exact ih hresto _ _

theorem restaurarAnexos_escreve (env : Ambiente) (sistema : FS)
    (manifesto : ManifestoBackup) (l : List (String × Bytes))
    (hE : ∀ p, sistema.falhaEscrita p = false)
    (hL : ∀ n, sistema.falhaLeituraEntrada n = false)
    (nome : String) (c : Bytes)
    (h1 : comecaCom "anexos/" nome = true) (h2 : terminaCom "/" nome = false)
    (hnodup : (l.map Prod.fst).Nodup) (hmem : (nome, c) ∈ l) :
    ∀ (estado : Estado) (avisos : List (String × String × String)),
      buscar (restaurarAnexos env sistema manifesto l estado avisos).estado.anexos
        (soltar nome 7) = some c := by
  induction l with
  | nil => simp at hmem
  | cons cabeca resto ih =>
    intro estado avisos
    obtain ⟨nome0, c0⟩ := cabeca
    rw [List.map_cons, List.nodup_cons] at hnodup
    have hnodup' := hnodup
    rcases List.mem_cons.mp hmem with heq | hresto
    · injection heq with hn hc
      subst hn; subst hc
      simp only [restaurarAnexos, h1, h2, hE, hL, Bool.not_false, Bool.and_self,
        if_true, Bool.false_eq_true, if_false, ite_false]
      rw [restaurarAnexos_preserva_busca]
      · exact buscar_inserir_mesmo _ _ _
      · intro nome' dados' hm h1' h2' heq'
        have hrec : nome' = "anexos/" ++ soltar nome' 7 := (anexos_recompoe h1').symm
        rw [heq', anexos_recompoe h1] at hrec
        exact hnodup'.1 (hrec ▸ List.mem_map.mpr ⟨(nome', dados'), hm, rfl⟩)
    · have ihr := ih hnodup'.2 hresto
      simp only [restaurarAnexos, hE, hL, Bool.false_eq_true, if_false, ite_false]
      split
      · exact ihr _ _
      · exact ihr _ _

theorem restaurarAnexos_regista_aviso (env : Ambiente) (sistema : FS)
    (manifesto : ManifestoBackup) (l : List (String × Bytes))
    (hE : ∀ p, sistema.falhaEscrita p = false)
    (hL : ∀ n, sistema.falhaLeituraEntrada n = false)
    (nome : String) (c : Bytes) (esperado : String)
    (h1 : comecaCom "anexos/" nome = true) (h2 : terminaCom "/" nome = false)
    (hbusca : buscar manifesto.hashes_anexos (soltar nome 7) = some esperado)
    (hne : calcular_hash_bytes env c ≠ esperado) (hmem : (nome, c) ∈ l) :
    ∀ (estado : Estado) (avisos : List (String × String × String)),
      (soltar nome 7, esperado, calcular_hash_bytes env c)
        ∈ (restaurarAnexos env sistema manifesto l estado avisos).avisos := by
  induction l with
  | nil => simp at hmem
  | cons cabeca resto ih =>
    intro estado avisos
    obtain ⟨nome0, c0⟩ := cabeca
    rcases List.mem_cons.mp hmem with heq | hresto
    · injection heq with hn hc
      subst hn; subst hc
      simp only [restaurarAnexos, h1, h2, hE, hL, hbusca, hne, Bool.not_false,
        Bool.and_self, if_true, Bool.false_eq_true, if_false, ite_false,
        ne_eq, not_false_eq_true, ite_true]
      exact restaurarAnexos_avisos_mono env sistema manifesto resto _ _ _
        (List.mem_append_right _ (List.mem_singleton.mpr rfl))
    · have ihr := ih hresto
      simp only [restaurarAnexos, hE, hL, Bool.false_eq_true, if_false, ite_false]
      split
      · exact ihr _ _
      · exact ihr _ _

theorem restaurarAnexos_avisos_origem (env : Ambiente) (sistema : FS)
    (manifesto : ManifestoBackup) (l : List (String × Bytes)) :
    ∀ (estado : Estado) (avisos : List (String × String × String))
      (w : String × String × String),
      w ∈ (restaurarAnexos env sistema manifesto l estado avisos).avisos →
      w ∈ avisos ∨ buscar manifesto.hashes_anexos w.1 = some w.2.1 := by
  induction l with
  | nil => intro estado avisos w hw; exact Or.inl hw
  | cons cabeca resto ih =>
    intro estado avisos w hw
    obtain ⟨nome, dados⟩ := cabeca
    have origem : ∀ avisos',
        (avisos' = avisos ∨
          ∃ o : String × String, avisos' = avisos ++ [(soltar nome 7, o.1, o.2)] ∧
            buscar manifesto.hashes_anexos (soltar nome 7) = some o.1) →
        w ∈ avisos' → w ∈ avisos ∨ buscar manifesto.hashes_anexos w.1 = some w.2.1 := by
      rintro avisos' (rfl | ⟨o, rfl, ho⟩) hw'
      · exact Or.inl hw'
      · rcases List.mem_append.mp hw' with h | h
        · exact Or.inl h
        · right
          rcases List.mem_singleton.mp h with rfl
          exact ho
    simp only [restaurarAnexos] at hw
    revert hw
    split
    · split
      · exact fun hw => Or.inl hw
      · split
        · intro hw
          apply origem _ _ hw
          split
          · rename_i esperado hesperado
            split
            · exact Or.inr ⟨(esperado, _), rfl, hesperado⟩
            · exact Or.inl rfl
          · exact Or.inl rfl
        · intro hw
          rcases ih _ _ _ hw with h | h
          · apply origem _ _ h
            split
            · rename_i esperado hesperado
              split
              · exact Or.inr ⟨(esperado, _), rfl, hesperado⟩
              · exact Or.inl rfl
            · exact Or.inl rfl
          · exact Or.inr h
    · exact fun hw => ih _ _ _ hw

theorem restaurarAnexos_propaga_falha (env : Ambiente) (sistema : FS)
    (manifesto : ManifestoBackup) (l : List (String × Bytes))
    (nome : String) (c : Bytes)
    (h1 : comecaCom "anexos/" nome = true) (h2 : terminaCom "/" nome = false)
    (hfalha : sistema.falhaLeituraEntrada nome = true ∨
      sistema.falhaEscrita ("storage/anexos/" ++ soltar nome 7) = true)
    (hmem : (nome, c) ∈ l) :
    ∀ (estado : Estado) (avisos : List (String × String × String)),
      (restaurarAnexos env sistema manifesto l estado avisos).erro.isSome := by
  induction l with
  | nil => simp at hmem
  | cons cabeca resto ih =>
    intro estado avisos
    obtain ⟨nome0, c0⟩ := cabeca
    rcases List.mem_cons.mp hmem with heq | hresto
    · injection heq with hn hc
      subst hn; subst hc
      simp only [restaurarAnexos, h1, h2, Bool.not_false, Bool.and_self, if_true]
      rcases hfalha with hf | hf
      · simp [hf]
      · split
        · rfl
        · simp [hf]
    · have ihr := ih hresto
      simp only [restaurarAnexos]
      split
      · split
        · rfl
        · split
          · rfl
          · exact ihr _ _
      · exact ihr _ _

-- =============================================================================
-- Helper lemmas: the archive-writing folds of criar_backup and export
-- =============================================================================

/-- Invariant of the `(entries, digests)` accumulator while attachments are
added to an archive: apart from the initial entry (`banco.sqlite` or
`dados.json`), every accumulated entry lives under `anexos/`, carries the
bytes found on disk for its relative path, and its digest is recorded in
the accumulated manifest map; conversely every recorded digest is the
digest of the on-disk bytes of its key. -/
def InvArquivo (env : Ambiente) (estado : Estado) (excecao : String × Bytes)
    (acc : Zip × Mapa) : Prop :=
  (∀ e : String × Bytes, e ∈ acc.1 → e = excecao ∨
     ∃ rel, e.1 = "anexos/" ++ rel ∧ buscar estado.anexos rel = some e.2 ∧
       buscar acc.2 rel = some (calcular_hash_bytes env e.2)) ∧
  (∀ k v, buscar acc.2 k = some v →
     ∃ c, buscar estado.anexos k = some c ∧ v = calcular_hash_bytes env c)

theorem passoAnexo_preserva (env : Ambiente) (estado : Estado)
    (excecao : String × Bytes) (acc : Zip × Mapa) (caminho : String)
    (h : InvArquivo env estado excecao acc) :
    InvArquivo env estado excecao (passoAnexo env estado acc caminho) := by
  unfold passoAnexo
  split
  · rename_i conteudo hc
    constructor
    · intro e he
      rcases List.mem_append.mp he with hm | hm
      · rcases h.1 e hm with h' | ⟨rel, h1', h2', h3'⟩
        · exact Or.inl h'
        · right
          refine ⟨rel, h1', h2', ?_⟩
          by_cases hrel : caminho = rel
          · subst hrel
            rw [hc] at h2'
            rw [buscar_inserir_mesmo, Option.some.injEq] at *
            rw [← h2']
          · rw [buscar_inserir_outro _ _ _ _ hrel]
            exact h3'
      · rcases List.mem_singleton.mp hm with rfl
        exact Or.inr ⟨caminho, rfl, hc, buscar_inserir_mesmo _ _ _⟩
    · intro k v hv
      by_cases hk : caminho = k
      · subst hk
        rw [buscar_inserir_mesmo, Option.some.injEq] at hv
        exact ⟨conteudo, hc, hv.symm⟩
      · rw [buscar_inserir_outro _ _ _ _ hk] at hv
        exact h.2 k v hv
  · exact h

theorem foldl_passoAnexo_inv {α : Type} (env : Ambiente) (estado : Estado)
    (excecao : String × Bytes) (chave : α → String) (l : List α) :
    ∀ acc, InvArquivo env estado excecao acc →
      InvArquivo env estado excecao
        (l.foldl (fun acc x => passoAnexo env estado acc (chave x)) acc) := by
  induction l with
  | nil => intro acc h; exact h
  | cons x resto ih =>
    intro acc h
    exact ih _ (passoAnexo_preserva env estado excecao acc (chave x) h)

theorem invArquivo_inicial (env : Ambiente) (estado : Estado)
    (excecao : String × Bytes) :
    InvArquivo env estado excecao ([excecao], []) := by
  constructor
  · intro e he
    exact Or.inl (List.mem_singleton.mp he)
  · intro k v hv
    simp [buscar] at hv

theorem nao_comeca_banco : comecaCom "anexos/" "banco.sqlite" = false := by decide

theorem nao_comeca_manifesto : comecaCom "anexos/" "manifesto.json" = false := by
  decide

theorem nao_comeca_dados : comecaCom "anexos/" "dados.json" = false := by decide

-- =============================================================================
-- Concrete instantiations of the external collaborators, for evaluation
-- =============================================================================

/-- A concrete `Ambiente` for evaluating the subsystem on closed inputs:
the digest of a byte stream is a run of `h` of its length, the serializers
are constant, the parsers return the supplied values, and the UUID supply
returns a run of `u` of length one more than the draw index (hence
injective and never empty). -/
def ambienteEx (m : Option ManifestoBackup) (d : Option DadosPasta) : Ambiente where
  hash := fun dados => ⟨List.replicate dados.length 'h'⟩
  agora := "2026-02-17T10:00:00Z"
  versao_cargo := "0.1.0"
  serializarManifesto := fun _ => [77]
  parseManifesto := fun _ => m
  serializarDados := fun _ _ => [68]
  parseDados := fun _ => d
  uuid := fun n => ⟨List.replicate (n + 1) 'u'⟩

/-- A filesystem oracle where nothing fails. -/
def fsEx : FS where
  falhaEscrita := fun _ => false
  falhaLeituraEntrada := fun _ => false

/-- A filesystem oracle where exactly the write of the restored attachment
`a1` fails. -/
def fsFalhaA1 : FS where
  falhaEscrita := fun p => p == "storage/anexos/a1"
  falhaLeituraEntrada := fun _ => false

/-- A small concrete connection: two attachments listed, one folder. -/
def conexaoEx : Conexao where
  caminhosAnexos := ["a1", "a2"]
  totalItens := 1
  totalAnexos := 2
  pastas := []
  itensCompletosDaPasta := fun _ => []

/-- A small concrete live state. -/
def estadoEx : Estado where
  banco := some [1, 2]
  anexos := [("a1", [3]), ("a2", [4])]
  backupsAutomaticos := []

-- =============================================================================
-- Claims
-- =============================================================================

/-- Claim C1: every validation failure during restore — a missing or
unparsable manifest entry, a missing `banco.sqlite` entry, or a recomputed
database digest differing from the manifest's `hash_banco` — makes
`restaurar_backup` return an error while leaving the live database file
and the live attachments tree exactly as they were before the call. -/
theorem restaurar_valida_antes_de_mutar (env : Ambiente) (sistema : FS)
    (conexao : Conexao) (zip : Zip) (estado : Estado)
    (hval : ler_manifesto_do_zip env zip = .error .manifestoNaoEncontrado ∨
      ler_manifesto_do_zip env zip = .error .manifestoIlegivel ∨
      porNome zip "banco.sqlite" = none ∨
      (∃ manifesto conteudo_banco,
        ler_manifesto_do_zip env zip = .ok manifesto ∧
        porNome zip "banco.sqlite" = some conteudo_banco ∧
        calcular_hash_bytes env conteudo_banco ≠ manifesto.hash_banco)) :
    (restaurar_backup env sistema conexao (some zip) estado).erro.isSome = true ∧
    (restaurar_backup env sistema conexao (some zip) estado).estado.banco =
      estado.banco ∧
    (restaurar_backup env sistema conexao (some zip) estado).estado.anexos =
      estado.anexos := by
  have hestado1 : ∀ e : Estado,
      (e = estado ∨ ∃ z, e = { estado with
        backupsAutomaticos := estado.backupsAutomaticos ++ [z] }) →
      e.banco = estado.banco ∧ e.anexos = estado.anexos := by
    rintro e (rfl | ⟨z, rfl⟩) <;> exact ⟨rfl, rfl⟩
  rcases hval with h | h | h | ⟨manifesto, conteudo_banco, hm, hb, hne⟩
  · simp [restaurar_backup, h]
  · simp [restaurar_backup, h]
  · rcases hm : ler_manifesto_do_zip env zip with e | manifesto
    · simp [restaurar_backup, hm]
    · simp only [restaurar_backup, hm, h]
      refine ⟨rfl, ?_⟩
      apply hestado1
      rcases hcb : criar_backup env conexao estado with e | z
      · exact Or.inl rfl
      · exact Or.inr ⟨z, rfl⟩
  · simp only [restaurar_backup, hm, hb]
    rcases hcb : criar_backup env conexao estado with e | z <;>
      simp only [hcb] <;> split <;> exact ⟨rfl, rfl, rfl⟩

/-- A manifest whose recorded database digest (`"zz"`) does not match the
digest of the `banco.sqlite` entry of `zipMau`. -/
def manifestoMau : ManifestoBackup where
  versao_app := "0.1.0"
  versao_schema := 2
  data := "2026-02-17T10:00:00Z"
  total_itens := 1
  total_anexos := 0
  hash_banco := "zz"
  hashes_anexos := []

/-- An archive carrying `manifestoMau` and a two-byte database entry. -/
def zipMau : Zip := [("manifesto.json", [0]), ("banco.sqlite", [1, 2])]

theorem restaurar_valida_antes_de_mutar_witness :
    (∃ manifesto conteudo_banco,
      ler_manifesto_do_zip (ambienteEx (some manifestoMau) none) zipMau =
        .ok manifesto ∧
      porNome zipMau "banco.sqlite" = some conteudo_banco ∧
      calcular_hash_bytes (ambienteEx (some manifestoMau) none) conteudo_banco ≠
        manifesto.hash_banco) ∧
    (restaurar_backup (ambienteEx (some manifestoMau) none) fsEx conexaoEx
      (some zipMau) estadoEx).erro.isSome = true ∧
    (restaurar_backup (ambienteEx (some manifestoMau) none) fsEx conexaoEx
      (some zipMau) estadoEx).estado.banco = estadoEx.banco ∧
    (restaurar_backup (ambienteEx (some manifestoMau) none) fsEx conexaoEx
      (some zipMau) estadoEx).estado.anexos = estadoEx.anexos :=
  ⟨⟨manifestoMau, [1, 2], rfl, rfl, by decide⟩,
    restaurar_valida_antes_de_mutar _ _ _ _ _
      (Or.inr (Or.inr (Or.inr ⟨manifestoMau, [1, 2], rfl, rfl, by decide⟩)))⟩

/-- Claim C7: once the manifest of a restore archive parses, the automatic
safety snapshot — a full backup of the pre-restore live state — is
attempted into the automatic-backups area before anything is modified
(the appended archive is `criar_backup` of the initial state), and a
failure of that snapshot is never the error the restore returns. -/
theorem restaurar_tenta_backup_automatico (env : Ambiente) (sistema : FS)
    (conexao : Conexao) (zip : Zip) (estado : Estado) (manifesto : ManifestoBackup)
    (hm : ler_manifesto_do_zip env zip = .ok manifesto) :
    (∀ z, criar_backup env conexao estado = .ok z →
      (restaurar_backup env sistema conexao (some zip) estado).estado.backupsAutomaticos =
        estado.backupsAutomaticos ++ [z]) ∧
    (∀ e, criar_backup env conexao estado = .error e →
      (restaurar_backup env sistema conexao (some zip) estado).estado.backupsAutomaticos =
        estado.backupsAutomaticos ∧
      (restaurar_backup env sistema conexao (some zip) estado).erro ≠ some e) := by
  have erroLoop : ∀ (l : List (String × Bytes)) (estado' : Estado)
      (avisos : List (String × String × String)),
      (restaurarAnexos env sistema manifesto l estado' avisos).erro = none ∨
      (∃ nome, (restaurarAnexos env sistema manifesto l estado' avisos).erro =
        some (.falhaLerAnexoDoZip nome)) ∨
      (∃ caminho, (restaurarAnexos env sistema manifesto l estado' avisos).erro =
        some (.falhaRestaurarAnexo caminho)) := by
    intro l
    induction l with
    | nil => intro estado' avisos; exact Or.inl rfl
    | cons cabeca resto ih =>
      intro estado' avisos
      obtain ⟨nome, dados⟩ := cabeca
      simp only [restaurarAnexos]
      split
      · split
        · exact Or.inr (Or.inl ⟨nome, rfl⟩)
        · split
          · exact Or.inr (Or.inr ⟨_, rfl⟩)
          · exact ih _ _
      · exact ih _ _
  constructor
  · intro z hz
    simp only [restaurar_backup, hm, hz]
    rcases hbanco : porNome zip "banco.sqlite" with _ | conteudo_banco
    · simp [hbanco]
    · simp only [hbanco]
      split
      · rfl
      · split
        · rfl
        · split
          · rfl
          · rw [restaurarAnexos_backups]
  · intro e he
    have herro : criar_backup env conexao estado = .error .falhaLerBanco := by
      rcases hb : estado.banco with _ | b
      · simp [criar_backup, hb]
      · rw [criar_backup] at he
        simp [hb] at he
    have hee : e = .falhaLerBanco := by
      rw [herro] at he
      injection he with h
      exact h.symm
    subst hee
    simp only [restaurar_backup, hm, herro]
    rcases hbanco : porNome zip "banco.sqlite" with _ | conteudo_banco
    · simp [hbanco]
    · simp only [hbanco]
      constructor
      · split
        · rfl
        · split
          · rfl
          · split
            · rfl
            · rw [restaurarAnexos_backups]
      · split
        · simp
        · split
          · simp
          · split
            · simp
            · rcases erroLoop zip _ [] with h | ⟨nome, h⟩ | ⟨caminho, h⟩ <;>
                rw [h] <;> simp

/-- A manifest matching `zipBom`: the database digest is right, and the
digest recorded for the attachment `a1` (`"zz"`) mismatches the bytes the
archive actually carries. -/
def manifestoBom : ManifestoBackup where
  versao_app := "0.1.0"
  versao_schema := 2
  data := "2026-02-17T10:00:00Z"
  total_itens := 1
  total_anexos := 1
  hash_banco := "hh"
  hashes_anexos := [("a1", "zz")]

/-- An archive that restores successfully: valid database entry, one
attachment with a mismatching recorded digest (`a1`), one attachment
absent from the manifest map (`a2`). -/
def zipBom : Zip :=
  [("manifesto.json", [0]), ("banco.sqlite", [1, 2]),
   ("anexos/a1", [5]), ("anexos/a2", [6])]

/-- The archive `criar_backup` produces from `estadoEx`/`conexaoEx` under
`ambienteEx` — the automatic safety snapshot taken during a restore. -/
def backupEx : Zip :=
  [("banco.sqlite", [1, 2]), ("anexos/a1", [3]), ("anexos/a2", [4]),
   ("manifesto.json", [77])]

theorem restaurar_tenta_backup_automatico_witness :
    ler_manifesto_do_zip (ambienteEx (some manifestoBom) none) zipBom =
      .ok manifestoBom ∧
    criar_backup (ambienteEx (some manifestoBom) none) conexaoEx estadoEx =
      .ok backupEx ∧
    (restaurar_backup (ambienteEx (some manifestoBom) none) fsEx conexaoEx
      (some zipBom) estadoEx).estado.backupsAutomaticos =
      estadoEx.backupsAutomaticos ++ [backupEx] :=
  ⟨rfl, rfl,
    (restaurar_tenta_backup_automatico (ambienteEx (some manifestoBom) none)
      fsEx conexaoEx zipBom estadoEx manifestoBom rfl).1 backupEx rfl⟩

/-- Claim C5: during restore, an attachment entry whose recomputed digest
differs from the digest the manifest records for its relative path is
logged as a warning, its extracted bytes are still written to the
attachments directory, and the restore still completes successfully
(stated for runs without injected I/O failures, over archives with
distinct entry names). -/
theorem restaurar_anexo_corrompido_tolerado (env : Ambiente) (sistema : FS)
    (conexao : Conexao) (zip : Zip) (estado : Estado)
    (manifesto : ManifestoBackup) (conteudo_banco : Bytes)
    (nome : String) (c : Bytes) (esperado : String)
    (hE : ∀ p, sistema.falhaEscrita p = false)
    (hL : ∀ n, sistema.falhaLeituraEntrada n = false)
    (hm : ler_manifesto_do_zip env zip = .ok manifesto)
    (hb : porNome zip "banco.sqlite" = some conteudo_banco)
    (hhash : calcular_hash_bytes env conteudo_banco = manifesto.hash_banco)
    (hnodup : (zip.map Prod.fst).Nodup)
    (hmem : (nome, c) ∈ zip)
    (h1 : comecaCom "anexos/" nome = true) (h2 : terminaCom "/" nome = false)
    (hesp : buscar manifesto.hashes_anexos (soltar nome 7) = some esperado)
    (hne : calcular_hash_bytes env c ≠ esperado) :
    (restaurar_backup env sistema conexao (some zip) estado).erro = none ∧
    (soltar nome 7, esperado, calcular_hash_bytes env c)
      ∈ (restaurar_backup env sistema conexao (some zip) estado).avisos ∧
    buscar (restaurar_backup env sistema conexao (some zip) estado).estado.anexos
      (soltar nome 7) = some c := by
  simp only [restaurar_backup, hm, hb]
  rw [if_neg (by simp [hL]), if_neg (by simp [hhash]), if_neg (by simp [hE])]
  refine ⟨restaurarAnexos_sem_falha env sistema manifesto zip hE hL _ _, ?_, ?_⟩
  · exact restaurarAnexos_regista_aviso env sistema manifesto zip hE hL
      nome c esperado h1 h2 hesp hne hmem _ _
  · exact restaurarAnexos_escreve env sistema manifesto zip hE hL
      nome c h1 h2 hnodup hmem _ _

theorem restaurar_anexo_corrompido_tolerado_witness :
    buscar manifestoBom.hashes_anexos (soltar "anexos/a1" 7) = some "zz" ∧
    calcular_hash_bytes (ambienteEx (some manifestoBom) none) [5] ≠ "zz" ∧
    ((restaurar_backup (ambienteEx (some manifestoBom) none) fsEx conexaoEx
        (some zipBom) estadoEx).erro = none ∧
      (soltar "anexos/a1" 7, "zz",
        calcular_hash_bytes (ambienteEx (some manifestoBom) none) [5])
        ∈ (restaurar_backup (ambienteEx (some manifestoBom) none) fsEx conexaoEx
            (some zipBom) estadoEx).avisos ∧
      buscar (restaurar_backup (ambienteEx (some manifestoBom) none) fsEx conexaoEx
          (some zipBom) estadoEx).estado.anexos (soltar "anexos/a1" 7) =
        some [5]) :=
  ⟨by decide, by decide,
    restaurar_anexo_corrompido_tolerado _ _ _ _ _ manifestoBom [1, 2]
      "anexos/a1" [5] "zz" (fun _ => rfl) (fun _ => rfl) rfl rfl rfl
      (by decide) (by decide) (by decide) (by decide) (by decide) (by decide)⟩

/-- Claim C10: during restore, an archive entry under the `anexos/` prefix
whose relative path has no digest recorded in the manifest is extracted
and written to the attachments directory anyway, undergoes no digest
check (no warning is ever logged for its path), and cannot make the
restore fail (stated for runs without injected I/O failures, over
archives with distinct entry names). -/
theorem restaurar_extrai_anexo_fora_do_manifesto (env : Ambiente) (sistema : FS)
    (conexao : Conexao) (zip : Zip) (estado : Estado)
    (manifesto : ManifestoBackup) (conteudo_banco : Bytes)
    (nome : String) (c : Bytes)
    (hE : ∀ p, sistema.falhaEscrita p = false)
    (hL : ∀ n, sistema.falhaLeituraEntrada n = false)
    (hm : ler_manifesto_do_zip env zip = .ok manifesto)
    (hb : porNome zip "banco.sqlite" = some conteudo_banco)
    (hhash : calcular_hash_bytes env conteudo_banco = manifesto.hash_banco)
    (hnodup : (zip.map Prod.fst).Nodup)
    (hmem : (nome, c) ∈ zip)
    (h1 : comecaCom "anexos/" nome = true) (h2 : terminaCom "/" nome = false)
    (hfora : buscar manifesto.hashes_anexos (soltar nome 7) = none) :
    (restaurar_backup env sistema conexao (some zip) estado).erro = none ∧
    buscar (restaurar_backup env sistema conexao (some zip) estado).estado.anexos
      (soltar nome 7) = some c ∧
    (∀ e o, (soltar nome 7, e, o)
      ∉ (restaurar_backup env sistema conexao (some zip) estado).avisos) := by
  simp only [restaurar_backup, hm, hb]
  rw [if_neg (by simp [hL]), if_neg (by simp [hhash]), if_neg (by simp [hE])]
  refine ⟨restaurarAnexos_sem_falha env sistema manifesto zip hE hL _ _, ?_, ?_⟩
  · exact restaurarAnexos_escreve env sistema manifesto zip hE hL
      nome c h1 h2 hnodup hmem _ _
  · intro e o hw
    rcases restaurarAnexos_avisos_origem env sistema manifesto zip _ _ _ hw with
      h | h
    · simp at h
    · rw [hfora] at h
      exact Option.noConfusion h

theorem restaurar_extrai_anexo_fora_do_manifesto_witness :
    buscar manifestoBom.hashes_anexos (soltar "anexos/a2" 7) = none ∧
    ((restaurar_backup (ambienteEx (some manifestoBom) none) fsEx conexaoEx
        (some zipBom) estadoEx).erro = none ∧
      buscar (restaurar_backup (ambienteEx (some manifestoBom) none) fsEx conexaoEx
          (some zipBom) estadoEx).estado.anexos (soltar "anexos/a2" 7) =
        some [6] ∧
      (∀ e o, (soltar "anexos/a2" 7, e, o)
        ∉ (restaurar_backup (ambienteEx (some manifestoBom) none) fsEx conexaoEx
            (some zipBom) estadoEx).avisos)) :=
  ⟨by decide,
    restaurar_extrai_anexo_fora_do_manifesto _ _ _ _ _ manifestoBom [1, 2]
      "anexos/a2" [6] (fun _ => rfl) (fun _ => rfl) rfl rfl rfl
      (by decide) (by decide) (by decide) (by decide) (by decide)⟩

/-- A live state whose database differs from the one in `zipBom`. -/
def estadoEx2 : Estado where
  banco := some [9]
  anexos := [("a1", [3]), ("a2", [4])]
  backupsAutomaticos := []

/-- Claim C4, counterexample: restoring `zipBom` with a write failure
injected on the single attachment `a1` makes the whole restore return an
error, and the later attachment `a2` is not restored either — the claim's
"only that attachment is skipped; … every other attachment proceeds and
the restore as a whole returns success" fails on the code. -/
theorem restaurar_falha_anexo_aborta_contraexemplo :
    (restaurar_backup (ambienteEx (some manifestoBom) none) fsFalhaA1 conexaoEx
      (some zipBom) estadoEx2).erro = some (.falhaRestaurarAnexo "a1") ∧
    buscar (restaurar_backup (ambienteEx (some manifestoBom) none) fsFalhaA1
      conexaoEx (some zipBom) estadoEx2).estado.anexos "a2" = none ∧
    (restaurar_backup (ambienteEx (some manifestoBom) none) fsFalhaA1 conexaoEx
      (some zipBom) estadoEx2).estado.banco = some [1, 2] := by
  decide

theorem restaurarAnexos_para_na_falha (env : Ambiente) (sistema : FS)
    (manifesto : ManifestoBackup) (nome : String) (c : Bytes)
    (h1 : comecaCom "anexos/" nome = true) (h2 : terminaCom "/" nome = false)
    (hfalha : sistema.falhaLeituraEntrada nome = true ∨
      sistema.falhaEscrita ("storage/anexos/" ++ soltar nome 7) = true)
    (l1 : List (String × Bytes)) :
    ∀ (l2 l2' : List (String × Bytes)) (estado : Estado)
      (avisos : List (String × String × String)),
      restaurarAnexos env sistema manifesto (l1 ++ (nome, c) :: l2) estado avisos =
        restaurarAnexos env sistema manifesto (l1 ++ (nome, c) :: l2') estado avisos := by
  induction l1 with
  | nil =>
    intro l2 l2' estado avisos
    simp only [List.nil_append, restaurarAnexos, h1, h2, Bool.not_false,
      Bool.and_self, if_true]
    split
    · rfl
    · rename_i hle
      rcases hfalha with hf | hf
      · exact absurd hf hle
      · simp [hf]
  | cons cabeca resto ih =>
    intro l2 l2' estado avisos
    obtain ⟨n0, d0⟩ := cabeca
    simp only [List.cons_append, restaurarAnexos]
    split
    · split
      · rfl
      · split
        · rfl
        · exact ih _ _ _ _
    · exact ih _ _ _ _

theorem restaurarAnexos_preserva_busca_falha (env : Ambiente) (sistema : FS)
    (manifesto : ManifestoBackup) (l : List (String × Bytes)) (rel : String)
    (h : ∀ nome dados, (nome, dados) ∈ l → comecaCom "anexos/" nome = true →
         terminaCom "/" nome = false → soltar nome 7 = rel →
         sistema.falhaLeituraEntrada nome = true ∨
         sistema.falhaEscrita ("storage/anexos/" ++ rel) = true) :
    ∀ (estado : Estado) (avisos : List (String × String × String)),
      buscar (restaurarAnexos env sistema manifesto l estado avisos).estado.anexos rel =
        buscar estado.anexos rel := by
  induction l with
  | nil => intro estado avisos; rfl
  | cons cabeca resto ih =>
    intro estado avisos
    obtain ⟨nome0, dados0⟩ := cabeca
    have hresto : ∀ nome' dados', (nome', dados') ∈ resto →
        comecaCom "anexos/" nome' = true → terminaCom "/" nome' = false →
        soltar nome' 7 = rel →
        sistema.falhaLeituraEntrada nome' = true ∨
        sistema.falhaEscrita ("storage/anexos/" ++ rel) = true := by
      intro nome' dados' hm
      exact h nome' dados' (List.mem_cons_of_mem _ hm)
    simp only [restaurarAnexos]
    split
    · rename_i hforma
      have hforma' := Bool.and_eq_true .. |>.mp hforma
      have h1 : comecaCom "anexos/" nome0 = true := hforma'.1
      have h2 : terminaCom "/" nome0 = false := by
        have := hforma'.2
        simpa using this
      split
      · rfl
      · split
        · rfl
        · rename_i hle hes
          rw [ih hresto]
          apply buscar_inserir_outro
          intro heq
          rcases h nome0 dados0 (List.mem_cons_self _ _) h1 h2 heq with hf | hf
          · exact hle hf
          · rw [← heq] at hf
            exact hes hf
    · exact ih hresto _ _

/-- Claim C4 as amended: during restore, after the live database file has
been replaced, an I/O failure while extracting or writing any single
attachment entry makes the restore as a whole return an error; the failing
attachment is not written to the attachments directory, the archive
entries after the failing one are not processed (the whole outcome is
independent of what follows the failing entry), and the database file
keeps the restored bytes. -/
theorem restaurar_falha_anexo_aborta (env : Ambiente) (sistema : FS)
    (conexao : Conexao) (l1 l2 : List (String × Bytes)) (estado : Estado)
    (manifesto : ManifestoBackup) (conteudo_banco : Bytes)
    (nome : String) (c : Bytes)
    (hm : ler_manifesto_do_zip env (l1 ++ (nome, c) :: l2) = .ok manifesto)
    (hb : porNome (l1 ++ (nome, c) :: l2) "banco.sqlite" = some conteudo_banco)
    (hL0 : sistema.falhaLeituraEntrada "banco.sqlite" = false)
    (hhash : calcular_hash_bytes env conteudo_banco = manifesto.hash_banco)
    (hEdb : sistema.falhaEscrita "vaultcraft.db" = false)
    (h1 : comecaCom "anexos/" nome = true) (h2 : terminaCom "/" nome = false)
    (hfalha : sistema.falhaLeituraEntrada nome = true ∨
      sistema.falhaEscrita ("storage/anexos/" ++ soltar nome 7) = true) :
    (restaurar_backup env sistema conexao (some (l1 ++ (nome, c) :: l2))
      estado).erro.isSome = true ∧
    (restaurar_backup env sistema conexao (some (l1 ++ (nome, c) :: l2))
      estado).estado.banco = some conteudo_banco ∧
    buscar (restaurar_backup env sistema conexao (some (l1 ++ (nome, c) :: l2))
      estado).estado.anexos (soltar nome 7) = none ∧
    (∀ l2', ler_manifesto_do_zip env (l1 ++ (nome, c) :: l2') = .ok manifesto →
      porNome (l1 ++ (nome, c) :: l2') "banco.sqlite" = some conteudo_banco →
      restaurar_backup env sistema conexao (some (l1 ++ (nome, c) :: l2')) estado =
        restaurar_backup env sistema conexao (some (l1 ++ (nome, c) :: l2))
          estado) := by
  have hmem : (nome, c) ∈ l1 ++ (nome, c) :: l2 :=
    List.mem_append_right _ (List.mem_cons_self _ _)
  have hcond : ∀ nome' dados', (nome', dados') ∈ l1 ++ (nome, c) :: l2 →
      comecaCom "anexos/" nome' = true → terminaCom "/" nome' = false →
      soltar nome' 7 = soltar nome 7 →
      sistema.falhaLeituraEntrada nome' = true ∨
      sistema.falhaEscrita ("storage/anexos/" ++ soltar nome 7) = true := by
    intro nome' dados' _ h1' h2' heq'
    have he : nome' = nome := by
      have ha := anexos_recompoe h1'
      have hb2 := anexos_recompoe h1
      rw [← ha, heq', hb2]
    rcases hfalha with hf | hf
    · exact Or.inl (he ▸ hf)
    · exact Or.inr hf
  refine ⟨?_, ?_, ?_, ?_⟩
  · simp only [restaurar_backup, hm, hb]
    rw [if_neg (by simp [hL0]), if_neg (by simp [hhash]), if_neg (by simp [hEdb])]
    exact restaurarAnexos_propaga_falha env sistema manifesto _ nome c
      h1 h2 hfalha hmem _ _
  · simp only [restaurar_backup, hm, hb]
    rw [if_neg (by simp [hL0]), if_neg (by simp [hhash]), if_neg (by simp [hEdb])]
    rw [restaurarAnexos_banco]
  · simp only [restaurar_backup, hm, hb]
    rw [if_neg (by simp [hL0]), if_neg (by simp [hhash]), if_neg (by simp [hEdb])]
    rw [restaurarAnexos_preserva_busca_falha env sistema manifesto _ _ hcond]
    rfl
  · intro l2' hm' hb'
    simp only [restaurar_backup, hm, hm', hb, hb']
    rw [if_neg (by simp [hL0]), if_neg (by simp [hhash]), if_neg (by simp [hEdb]),
      if_neg (by simp [hL0]), if_neg (by simp [hhash]), if_neg (by simp [hEdb])]
    exact restaurarAnexos_para_na_falha env sistema manifesto nome c h1 h2
      hfalha l1 l2' l2 _ _

theorem restaurar_falha_anexo_aborta_witness :
    (fsFalhaA1.falhaLeituraEntrada "anexos/a1" = true ∨
      fsFalhaA1.falhaEscrita ("storage/anexos/" ++ soltar "anexos/a1" 7) = true) ∧
    ((restaurar_backup (ambienteEx (some manifestoBom) none) fsFalhaA1 conexaoEx
      (some ([("manifesto.json", [0]), ("banco.sqlite", [1, 2])] ++
        ("anexos/a1", [5]) :: [("anexos/a2", [6])])) estadoEx2).erro.isSome = true ∧
    (restaurar_backup (ambienteEx (some manifestoBom) none) fsFalhaA1 conexaoEx
      (some ([("manifesto.json", [0]), ("banco.sqlite", [1, 2])] ++
        ("anexos/a1", [5]) :: [("anexos/a2", [6])])) estadoEx2).estado.banco =
      some [1, 2] ∧
    buscar (restaurar_backup (ambienteEx (some manifestoBom) none) fsFalhaA1
      conexaoEx (some ([("manifesto.json", [0]), ("banco.sqlite", [1, 2])] ++
        ("anexos/a1", [5]) :: [("anexos/a2", [6])])) estadoEx2).estado.anexos
      (soltar "anexos/a1" 7) = none ∧
    (∀ l2', ler_manifesto_do_zip (ambienteEx (some manifestoBom) none)
        ([("manifesto.json", [0]), ("banco.sqlite", [1, 2])] ++
          ("anexos/a1", [5]) :: l2') = .ok manifestoBom →
      porNome ([("manifesto.json", [0]), ("banco.sqlite", [1, 2])] ++
          ("anexos/a1", [5]) :: l2') "banco.sqlite" = some [1, 2] →
      restaurar_backup (ambienteEx (some manifestoBom) none) fsFalhaA1 conexaoEx
        (some ([("manifesto.json", [0]), ("banco.sqlite", [1, 2])] ++
          ("anexos/a1", [5]) :: l2')) estadoEx2 =
        restaurar_backup (ambienteEx (some manifestoBom) none) fsFalhaA1 conexaoEx
          (some ([("manifesto.json", [0]), ("banco.sqlite", [1, 2])] ++
            ("anexos/a1", [5]) :: [("anexos/a2", [6])])) estadoEx2)) :=
  ⟨Or.inr (by decide),
    restaurar_falha_anexo_aborta (ambienteEx (some manifestoBom) none) fsFalhaA1
      conexaoEx [("manifesto.json", [0]), ("banco.sqlite", [1, 2])]
      [("anexos/a2", [6])] estadoEx2 manifestoBom [1, 2] "anexos/a1" [5]
      rfl rfl rfl (by decide) rfl (by decide) (by decide) (Or.inr (by decide))⟩

/-- A manifest whose `versao_schema` (3) is strictly newer than the
running system's `versao_mais_recente` (2). -/
def manifestoFuturo : ManifestoBackup where
  versao_app := "9.9.9"
  versao_schema := 3
  data := "2026-02-17T10:00:00Z"
  total_itens := 1
  total_anexos := 1
  hash_banco := "hh"
  hashes_anexos := [("a1", "zz")]

/-- Claim C2: the code never compares the manifest's `versao_schema` with
`versao_mais_recente`; restoring an archive from a strictly newer schema
succeeds and overwrites the live database file instead of failing before
any mutation. -/
theorem restaurar_ignora_versao_schema :
    versao_mais_recente < manifestoFuturo.versao_schema ∧
    ler_manifesto_do_zip (ambienteEx (some manifestoFuturo) none) zipBom =
      .ok manifestoFuturo ∧
    (restaurar_backup (ambienteEx (some manifestoFuturo) none) fsEx conexaoEx
      (some zipBom) estadoEx2).erro = none ∧
    estadoEx2.banco = some [9] ∧
    (restaurar_backup (ambienteEx (some manifestoFuturo) none) fsEx conexaoEx
      (some zipBom) estadoEx2).estado.banco = some [1, 2] :=
  ⟨by decide, rfl, by decide, rfl, by decide⟩

/-- The parsed `dados.json` document of a small one-item, one-attachment
folder package. -/
def dadosEx : DadosPasta where
  pasta_nome := some "Contas"
  pasta_pai_id := none
  itens := some
    [{ tipo := some "nota", titulo := some "Aluguel", descricao := none,
       conteudo_nota := some "texto", data_vencimento := none,
       anexos := some
         [{ caminho_interno := some "a1", nome_original := some "lease.pdf",
            tipo_mime := some "application/pdf" }] }]

/-- A folder package with a `dados.json` entry and one attachment, but no
`manifesto.json` entry at all. -/
def zipPacote : Zip := [("dados.json", [7]), ("anexos/a1", [5])]

/-- The empty vault. -/
def cofreVazio : Cofre := ⟨[], [], []⟩

/-- Claim C3, counterexample: `importar_pacote` never reads the manifest
entry — importing an archive with no `manifesto.json` at all succeeds and
mutates the vault, against the claim that a missing manifest fails
the import with no mutation. -/
theorem importar_ignora_manifesto_contraexemplo :
    porNome zipPacote "manifesto.json" = none ∧
    (importar_pacote (ambienteEx none (some dadosEx)) (some zipPacote)
      cofreVazio [] 0).erro = none ∧
    (importar_pacote (ambienteEx none (some dadosEx)) (some zipPacote)
      cofreVazio [] 0).cofre ≠ cofreVazio := by
  decide

/-- Claim C3 as amended: what import reads and validates before any
folder, item, or attachment record is created is the structured-data
entry `dados.json`, not the manifest: an archive whose `dados.json` is
missing or unparsable fails the import with no mutation of the vault or
of the attachment store. -/
theorem importar_valida_dados_antes_de_mutar (env : Ambiente) (zip : Zip)
    (cofre : Cofre) (arquivos : List (String × Bytes)) (g : Nat)
    (hval : porNome zip "dados.json" = none ∨
      (∃ conteudo, porNome zip "dados.json" = some conteudo ∧
        env.parseDados conteudo = none)) :
    (importar_pacote env (some zip) cofre arquivos g).erro.isSome = true ∧
    (importar_pacote env (some zip) cofre arquivos g).cofre = cofre ∧
    (importar_pacote env (some zip) cofre arquivos g).arquivos = arquivos := by
  rcases hval with h | ⟨conteudo, h, hp⟩
  · simp [importar_pacote, h]
  · simp [importar_pacote, h, hp]

theorem importar_valida_dados_antes_de_mutar_witness :
    (porNome zipPacote "dados.json" = none ∨
      (∃ conteudo, porNome zipPacote "dados.json" = some conteudo ∧
        (ambienteEx none none).parseDados conteudo = none)) ∧
    (importar_pacote (ambienteEx none none) (some zipPacote) cofreVazio [] 0).erro.isSome
      = true ∧
    (importar_pacote (ambienteEx none none) (some zipPacote) cofreVazio [] 0).cofre
      = cofreVazio ∧
    (importar_pacote (ambienteEx none none) (some zipPacote) cofreVazio [] 0).arquivos
      = [] :=
  ⟨Or.inr ⟨[7], rfl, rfl⟩,
    importar_valida_dados_antes_de_mutar _ _ _ _ _ (Or.inr ⟨[7], rfl, rfl⟩)⟩

theorem soltar_anexos (r : String) : soltar ("anexos/" ++ r) 7 = r := by
  have h := soltar_append "anexos/" r
  rwa [anexos_data_length] at h

theorem foldl_exportacao_inv (env : Ambiente) (estado : Estado)
    (excecao : String × Bytes) (itens : List Item) :
    ∀ acc, InvArquivo env estado excecao acc →
      InvArquivo env estado excecao
        (itens.foldl
          (fun acc item => item.anexos.foldl
            (fun acc anexo => passoAnexo env estado acc anexo.caminho_interno) acc)
          acc) := by
  induction itens with
  | nil => intro acc h; exact h
  | cons item resto ih =>
    intro acc h
    exact ih _ (foldl_passoAnexo_inv env estado excecao Anexo.caminho_interno
      item.anexos acc h)

/-- Claim C6: every archive produced by the full backup and by the folder
export ends with the manifest as its final entry; every entry stored under
the `anexos/` prefix at relative path `p` has `hashes_anexos[p]` equal to
the digest of exactly the bytes written for it; a full backup's
`hash_banco` is the digest of the stored `banco.sqlite` bytes, while a
folder package's `hash_banco` is the empty string. -/
theorem arquivo_produzido_coerente (env : Ambiente) (conexao : Conexao)
    (estado : Estado) :
    (∀ zip, criar_backup env conexao estado = .ok zip →
      ∃ manifesto : ManifestoBackup,
        zip.getLast? = some ("manifesto.json", env.serializarManifesto manifesto) ∧
        (∀ nome c, (nome, c) ∈ zip → comecaCom "anexos/" nome = true →
          buscar manifesto.hashes_anexos (soltar nome 7) =
            some (calcular_hash_bytes env c)) ∧
        (∀ b, ("banco.sqlite", b) ∈ zip →
          manifesto.hash_banco = calcular_hash_bytes env b)) ∧
    (∀ pasta_id zip, exportar_pacote_pasta env conexao pasta_id estado = .ok zip →
      ∃ manifesto : ManifestoBackup,
        zip.getLast? = some ("manifesto.json", env.serializarManifesto manifesto) ∧
        (∀ nome c, (nome, c) ∈ zip → comecaCom "anexos/" nome = true →
          buscar manifesto.hashes_anexos (soltar nome 7) =
            some (calcular_hash_bytes env c)) ∧
        manifesto.hash_banco = "") := by
  have analise : ∀ (resultado : Zip × Mapa) (excecao : String × Bytes)
      (hx : comecaCom "anexos/" excecao.1 = false)
      (_ : InvArquivo env estado excecao resultado)
      (nome : String) (c : Bytes) (entrada : ManifestoBackup → Bytes)
      (m : ManifestoBackup) (hm : m.hashes_anexos = resultado.2),
      (nome, c) ∈ resultado.1 ++ [("manifesto.json", entrada m)] →
      comecaCom "anexos/" nome = true →
      buscar m.hashes_anexos (soltar nome 7) = some (calcular_hash_bytes env c) := by
    rintro resultado excecao hx hinv nome c entrada m hm hmem hcomeca
    rcases List.mem_append.mp hmem with hdentro | hfim
    · rcases hinv.1 _ hdentro with hig | ⟨rel, h1', h2', h3'⟩
      · have hnome : nome = excecao.1 := congrArg Prod.fst hig
        rw [hnome, hx] at hcomeca
        exact Bool.noConfusion hcomeca
      · simp only at h1'
        rw [hm, h1', soltar_anexos]
        exact h3'
    · rcases List.mem_singleton.mp hfim with h
      have : nome = "manifesto.json" := congrArg Prod.fst h
      rw [this, nao_comeca_manifesto] at hcomeca
      exact Bool.noConfusion hcomeca
  constructor
  · intro zip hz
    rcases hb : estado.banco with _ | b
    · rw [criar_backup, hb] at hz
      exact Except.noConfusion hz
    · rw [criar_backup, hb] at hz
      injection hz with hz
      subst hz
      refine ⟨_, List.getLast?_concat _, ?_, ?_⟩
      · intro nome c hmem hcomeca
        exact analise _ ("banco.sqlite", b) nao_comeca_banco
          (foldl_passoAnexo_inv env estado _ (fun s => s) _ _
            (invArquivo_inicial env estado _))
          nome c _ _ rfl hmem hcomeca
      · intro b' hmem
        have hinv := foldl_passoAnexo_inv env estado ("banco.sqlite", b)
          (fun s => s) conexao.caminhosAnexos _ (invArquivo_inicial env estado _)
        rcases List.mem_append.mp hmem with hdentro | hfim
        · rcases hinv.1 _ hdentro with hig | ⟨rel, h1', _, _⟩
          · have : b' = b := congrArg Prod.snd hig
            rw [this]
          · simp only at h1'
            exact absurd h1'.symm (append_ne_de_nao_comeca rel nao_comeca_banco)
        · have := congrArg Prod.fst (List.mem_singleton.mp hfim)
          simp only at this
          exact absurd this (by decide)
  · intro pasta_id zip hz
    rcases hp : obter_pasta_por_id conexao.pastas pasta_id with e | pasta
    · rw [exportar_pacote_pasta, hp] at hz
      exact Except.noConfusion hz
    · rw [exportar_pacote_pasta, hp] at hz
      injection hz with hz
      subst hz
      refine ⟨_, List.getLast?_concat _, ?_, rfl⟩
      intro nome c hmem hcomeca
      exact analise _ ("dados.json",
          env.serializarDados pasta (conexao.itensCompletosDaPasta pasta_id))
        nao_comeca_dados
        (foldl_exportacao_inv env estado _ _ _ (invArquivo_inicial env estado _))
        nome c _ _ rfl hmem hcomeca

/-- A connection with one folder with one item with one attachment, for
evaluating the folder export. -/
def conexaoEx3 : Conexao where
  caminhosAnexos := ["a1", "a2"]
  totalItens := 1
  totalAnexos := 2
  pastas := [{ id := "p1", pasta_pai_id := none, nome := "Contas",
               caminho := "/Contas", criado_em := "t", atualizado_em := "t" }]
  itensCompletosDaPasta := fun _ =>
    [{ id := "i1", pasta_id := "p1", tipo := .nota, titulo := "Aluguel",
       descricao := none, conteudo_nota := none, data_vencimento := none,
       criado_em := "t", atualizado_em := "t", tags := [],
       anexos := [{ id := "x1", item_id := some "i1", tarefa_id := none,
                    nome_original := "lease.pdf", caminho_interno := "a1",
                    tamanho := 1, tipo_mime := "application/pdf",
                    hash_sha256 := some "h", criado_em := "t" }] }]

/-- The package `exportar_pacote_pasta` produces from `conexaoEx3` and
`estadoEx` under `ambienteEx`. -/
def pacoteEx : Zip :=
  [("dados.json", [68]), ("anexos/a1", [3]), ("manifesto.json", [77])]

theorem arquivo_produzido_coerente_witness :
    criar_backup (ambienteEx none none) conexaoEx estadoEx = .ok backupEx ∧
    exportar_pacote_pasta (ambienteEx none none) conexaoEx3 "p1" estadoEx =
      .ok pacoteEx ∧
    (∃ manifesto : ManifestoBackup,
      backupEx.getLast? =
        some ("manifesto.json", (ambienteEx none none).serializarManifesto manifesto) ∧
      (∀ nome c, (nome, c) ∈ backupEx → comecaCom "anexos/" nome = true →
        buscar manifesto.hashes_anexos (soltar nome 7) =
          some (calcular_hash_bytes (ambienteEx none none) c)) ∧
      (∀ b, ("banco.sqlite", b) ∈ backupEx →
        manifesto.hash_banco = calcular_hash_bytes (ambienteEx none none) b)) ∧
    (∃ manifesto : ManifestoBackup,
      pacoteEx.getLast? =
        some ("manifesto.json", (ambienteEx none none).serializarManifesto manifesto) ∧
      (∀ nome c, (nome, c) ∈ pacoteEx → comecaCom "anexos/" nome = true →
        buscar manifesto.hashes_anexos (soltar nome 7) =
          some (calcular_hash_bytes (ambienteEx none none) c)) ∧
      manifesto.hash_banco = "") :=
  ⟨rfl, rfl,
    (arquivo_produzido_coerente (ambienteEx none none) conexaoEx estadoEx).1
      backupEx rfl,
    (arquivo_produzido_coerente (ambienteEx none none) conexaoEx3 estadoEx).2
      "p1" pacoteEx rfl⟩

/-- A connection listing an attachment path (`fantasma`) that has no file
on disk in `estadoEx`. -/
def conexaoFantasma : Conexao where
  caminhosAnexos := ["a1", "fantasma", "a2"]
  totalItens := 1
  totalAnexos := 3
  pastas := []
  itensCompletosDaPasta := fun _ => []

/-- Claim C9: a full backup silently skips an attachment that is listed in
the database but absent on disk — the backup succeeds, the produced
archive has no entry for that path, and the manifest records no digest
for it. -/
theorem criar_backup_ignora_anexo_ausente (env : Ambiente) (conexao : Conexao)
    (estado : Estado) (caminho : String) (b : Bytes)
    (hb : estado.banco = some b)
    (hlista : caminho ∈ conexao.caminhosAnexos)
    (hausente : buscar estado.anexos caminho = none) :
    ∃ zip manifesto,
      criar_backup env conexao estado = .ok zip ∧
      zip.getLast? = some ("manifesto.json", env.serializarManifesto manifesto) ∧
      buscar manifesto.hashes_anexos caminho = none ∧
      ∀ c, ("anexos/" ++ caminho, c) ∉ zip := by
  have hinv := foldl_passoAnexo_inv env estado ("banco.sqlite", b)
    (fun s => s) conexao.caminhosAnexos _ (invArquivo_inicial env estado _)
  refine ⟨_, _, by rw [criar_backup, hb], List.getLast?_concat _, ?_, ?_⟩
  · rcases hm : buscar (conexao.caminhosAnexos.foldl (passoAnexo env estado)
        ([("banco.sqlite", b)], [])).2 caminho with _ | v
    · rfl
    · obtain ⟨c, hc, _⟩ := hinv.2 caminho v hm
      rw [hausente] at hc
      exact Option.noConfusion hc
  · intro c hmem
    rcases List.mem_append.mp hmem with hdentro | hfim
    · rcases hinv.1 _ hdentro with hig | ⟨rel, h1', h2', _⟩
      · have : "anexos/" ++ caminho = "banco.sqlite" := congrArg Prod.fst hig
        exact append_ne_de_nao_comeca caminho nao_comeca_banco this
      · simp only at h1' h2'
        have hrel : caminho = rel := string_append_cancela h1'
        rw [← hrel] at h2'
        rw [hausente] at h2'
        exact Option.noConfusion h2'
    · have : "anexos/" ++ caminho = "manifesto.json" :=
        congrArg Prod.fst (List.mem_singleton.mp hfim)
      exact append_ne_de_nao_comeca caminho nao_comeca_manifesto this

theorem criar_backup_ignora_anexo_ausente_witness :
    estadoEx.banco = some [1, 2] ∧
    "fantasma" ∈ conexaoFantasma.caminhosAnexos ∧
    buscar estadoEx.anexos "fantasma" = none ∧
    (∃ zip manifesto,
      criar_backup (ambienteEx none none) conexaoFantasma estadoEx = .ok zip ∧
      zip.getLast? =
        some ("manifesto.json", (ambienteEx none none).serializarManifesto manifesto) ∧
      buscar manifesto.hashes_anexos "fantasma" = none ∧
      ∀ c, ("anexos/" ++ "fantasma", c) ∉ zip) :=
  ⟨rfl, by decide, by decide,
    criar_backup_ignora_anexo_ausente (ambienteEx none none) conexaoFantasma
      estadoEx "fantasma" [1, 2] rfl (by decide) (by decide)⟩

-- =============================================================================
-- Helper lemmas: the import loops and the identities they create
-- =============================================================================

theorem importarAnexosDoItem_spec (env : Ambiente) (zip : Zip) (itemId : String)
    (docs : List AnexoDoc) :
    ∀ (cofre : Cofre) (arq : List (String × Bytes)) (g : Nat),
      (importarAnexosDoItem env zip itemId docs cofre arq g).1.pastas =
        cofre.pastas ∧
      (importarAnexosDoItem env zip itemId docs cofre arq g).1.itens =
        cofre.itens ∧
      g ≤ (importarAnexosDoItem env zip itemId docs cofre arq g).2.2 ∧
      ∃ (novos : List Anexo) (ns : List Nat),
        (importarAnexosDoItem env zip itemId docs cofre arq g).1.anexos =
          cofre.anexos ++ novos ∧
        novos.map Anexo.id = ns.map env.uuid ∧
        ns.Nodup ∧
        ∀ n ∈ ns, g ≤ n ∧
          n < (importarAnexosDoItem env zip itemId docs cofre arq g).2.2 := by
  induction docs with
  | nil =>
    intro cofre arq g
    exact ⟨rfl, rfl, Nat.le_refl g,
      [], [], by simp [importarAnexosDoItem], rfl, List.nodup_nil, by simp⟩
  | cons doc resto ih =>
    intro cofre arq g
    simp only [importarAnexosDoItem]
    split
    · split
      · rename_i conteudo hcont
        obtain ⟨hp, hi, hg, novos', ns', ha, hids, hnd, hlim⟩ := ih _ _ (g + 1)
        refine ⟨by rw [hp]; rfl, by rw [hi]; rfl, Nat.le_of_succ_le hg,
          ?_ :: novos', g :: ns', ?_, ?_, ?_, ?_⟩
        · exact
            { id := env.uuid g, item_id := some itemId, tarefa_id := none,
              nome_original := doc.nome_original.getD "arquivo",
              caminho_interno :=
                env.uuid g ++ "/" ++ doc.nome_original.getD "arquivo",
              tamanho := (conteudo.length : Int),
              tipo_mime := doc.tipo_mime.getD "application/octet-stream",
              hash_sha256 := some (calcular_hash_bytes env conteudo),
              criado_em := env.agora }
        · rw [ha]
          simp [criar_anexo]
        · simp only [List.map_cons, hids]
        · refine List.nodup_cons.mpr ⟨?_, hnd⟩
          intro hmem
          exact absurd (hlim g hmem).1 (by omega)
        · intro n hn
          rcases List.mem_cons.mp hn with rfl | hn'
          · exact ⟨Nat.le_refl n, Nat.lt_of_succ_le hg⟩
          · obtain ⟨hn1, hn2⟩ := hlim n hn'
            exact ⟨by omega, hn2⟩
      · exact ih _ _ _
    · exact ih _ _ _

theorem perm_intercala {α : Type} (a x b c : List α) (h : (a ++ b).Perm c) :
    (a ++ (x ++ b)).Perm (x ++ c) := by
  have h2 : ((a ++ x) ++ b).Perm ((x ++ a) ++ b) :=
    (List.perm_append_comm).append_right b
  rw [(List.append_assoc a x b).symm]
  refine h2.trans ?_
  rw [List.append_assoc x a b]
  exact h.append_left x

theorem importarItens_spec (env : Ambiente) (zip : Zip) (pastaId : String)
    (docs : List ItemDoc) :
    ∀ (cofre : Cofre) (arq : List (String × Bytes)) (g : Nat),
      (importarItens env zip pastaId docs cofre arq g).1.pastas = cofre.pastas ∧
      g ≤ (importarItens env zip pastaId docs cofre arq g).2.2 ∧
      ∃ (novosI : List Item) (novosA : List Anexo) (ns : List Nat),
        (importarItens env zip pastaId docs cofre arq g).1.itens =
          cofre.itens ++ novosI ∧
        (importarItens env zip pastaId docs cofre arq g).1.anexos =
          cofre.anexos ++ novosA ∧
        (novosI.map Item.id ++ novosA.map Anexo.id).Perm (ns.map env.uuid) ∧
        ns.Nodup ∧
        ∀ n ∈ ns, g ≤ n ∧
          n < (importarItens env zip pastaId docs cofre arq g).2.2 := by
  induction docs with
  | nil =>
    intro cofre arq g
    exact ⟨rfl, Nat.le_refl g, [], [], [],
      by simp [importarItens], by simp [importarItens],
      List.Perm.refl _, List.nodup_nil, by simp⟩
  | cons doc resto ih =>
    intro cofre arq g
    rcases hdoc : doc.anexos with _ | docs0 <;>
      simp only [importarItens, criar_item, hdoc]
    case cons.some =>
      obtain ⟨hpA, hiA, hgA, novosA0, nsA, haA, hidsA, hndA, hlimA⟩ :=
        importarAnexosDoItem_spec env zip _ docs0 _ arq (g + 1)
      obtain ⟨hpI, hgI, novosI', novosA', ns', hiI, haI, hpermI, hndI, hlimI⟩ :=
        ih _ _ _
      refine ⟨by rw [hpI, hpA], by omega,
        { id := env.uuid g, pasta_id := pastaId,
          tipo := TipoItem.de_str (doc.tipo.getD "nota"),
          titulo := doc.titulo.getD "Sem título", descricao := doc.descricao,
          conteudo_nota := doc.conteudo_nota,
          data_vencimento := doc.data_vencimento,
          criado_em := env.agora, atualizado_em := env.agora,
          tags := [], anexos := [] } :: novosI', novosA0 ++ novosA',
        g :: (nsA ++ ns'), ?_, ?_, ?_, ?_, ?_⟩
      · rw [hiI, hiA]
        simp
      · rw [haI, haA]
        simp
      · simp only [List.map_cons, List.map_append]
        rw [hidsA]
        exact List.Perm.cons _ (perm_intercala _ _ _ _ hpermI)
      · refine List.nodup_cons.mpr ⟨?_, ?_⟩
        · intro hmem
          rcases List.mem_append.mp hmem with h | h
          · exact absurd (hlimA g h).1 (by omega)
          · exact absurd (hlimI g h).1 (by omega)
        · refine List.Nodup.append hndA hndI ?_
          intro n hn hn'
          have := (hlimA n hn).2
          have := (hlimI n hn').1
          omega
      · intro n hn
        rcases List.mem_cons.mp hn with rfl | hn'
        · constructor
          · exact Nat.le_refl n
          · omega
        · rcases List.mem_append.mp hn' with h | h
          · have := hlimA n h
            omega
          · have := hlimI n h
            omega
    · obtain ⟨hpI, hgI, novosI', novosA', ns', hiI, haI, hpermI, hndI, hlimI⟩ :=
        ih _ _ (g + 1)
      refine ⟨by rw [hpI], by omega,
        { id := env.uuid g, pasta_id := pastaId,
          tipo := TipoItem.de_str (doc.tipo.getD "nota"),
          titulo := doc.titulo.getD "Sem título", descricao := doc.descricao,
          conteudo_nota := doc.conteudo_nota,
          data_vencimento := doc.data_vencimento,
          criado_em := env.agora, atualizado_em := env.agora,
          tags := [], anexos := [] } :: novosI', novosA',
        g :: ns', ?_, ?_, ?_, ?_, ?_⟩
      · rw [hiI]
        simp
      · rw [haI]
      · simp only [List.map_cons]
        exact List.Perm.cons _ hpermI
      · refine List.nodup_cons.mpr ⟨?_, hndI⟩
        intro hmem
        exact absurd (hlimI g hmem).1 (by omega)
      · intro n hn
        rcases List.mem_cons.mp hn with rfl | hn'
        · constructor
          · exact Nat.le_refl n
          · omega
        · have := hlimI n hn'
          omega

theorem criar_pasta_spec (env : Ambiente) (cofre : Cofre) (g : Nat)
    (dados : NovaPasta) :
    (∀ pasta cofre', (criar_pasta env cofre g dados).1 = .ok (pasta, cofre') →
      pasta.id = env.uuid g ∧ pasta.nome = dados.nome ∧
      cofre'.pastas = cofre.pastas ++ [pasta] ∧
      cofre'.itens = cofre.itens ∧ cofre'.anexos = cofre.anexos) ∧
    (criar_pasta env cofre g dados).2 = g + 1 := by
  constructor
  · intro pasta cofre' h
    rw [criar_pasta] at h
    revert h
    split
    · intro h
      exact Except.noConfusion h
    · intro h
      injection h with h
      injection h with h1 h2
      subst h1; subst h2
      exact ⟨rfl, rfl, rfl, rfl, rfl⟩
  · rw [criar_pasta]
    split <;> rfl

theorem importar_pacote_spec (env : Ambiente) (zip : Zip) (conteudo : Bytes)
    (dados : DadosPasta) (cofre : Cofre) (arq : List (String × Bytes)) (g : Nat)
    (hdados : porNome zip "dados.json" = some conteudo)
    (hparse : env.parseDados conteudo = some dados)
    (hok : (importar_pacote env (some zip) cofre arq g).erro = none) :
    ∃ (pasta : Pasta) (novosI : List Item) (novosA : List Anexo) (ns : List Nat),
      (importar_pacote env (some zip) cofre arq g).cofre.pastas =
        cofre.pastas ++ [pasta] ∧
      (importar_pacote env (some zip) cofre arq g).cofre.itens =
        cofre.itens ++ novosI ∧
      (importar_pacote env (some zip) cofre arq g).cofre.anexos =
        cofre.anexos ++ novosA ∧
      pasta.nome = dados.pasta_nome.getD "Pasta Importada" ++ " (importado)" ∧
      pasta.id = env.uuid g ∧
      g < (importar_pacote env (some zip) cofre arq g).proximoUuid ∧
      (novosI.map Item.id ++ novosA.map Anexo.id).Perm (ns.map env.uuid) ∧
      ns.Nodup ∧
      ∀ n ∈ ns, g + 1 ≤ n ∧
        n < (importar_pacote env (some zip) cofre arq g).proximoUuid := by
  rw [importar_pacote] at hok ⊢
  simp only [hdados, hparse] at hok ⊢
  rcases hcp : criar_pasta env cofre g
      ⟨dados.pasta_nome.getD "Pasta Importada" ++ " (importado)",
        dados.pasta_pai_id⟩ with ⟨res, g'⟩
  have hg' : g' = g + 1 := by
    have h2 := (criar_pasta_spec env cofre g
      ⟨dados.pasta_nome.getD "Pasta Importada" ++ " (importado)",
        dados.pasta_pai_id⟩).2
    rw [hcp] at h2
    exact h2
  rcases res with e | ⟨pasta', cofre'⟩
  · rw [hcp] at hok
    simp at hok
  · have hfacts := (criar_pasta_spec env cofre g
      ⟨dados.pasta_nome.getD "Pasta Importada" ++ " (importado)",
        dados.pasta_pai_id⟩).1 pasta' cofre' (by rw [hcp])
    simp only [hcp]
    subst hg'
    rcases hitens : dados.itens with _ | docs
    · simp only [hitens]
      exact ⟨pasta', [], [], [],
        by simp [hfacts.2.2.1], by simp [hfacts.2.2.2.1],
        by simp [hfacts.2.2.2.2], hfacts.2.1, hfacts.1,
        by omega, List.Perm.refl _, List.nodup_nil, by simp⟩
    · simp only [hitens]
      obtain ⟨hpI, hgI, novosI, novosA, ns, hiI, haI, hperm, hnd, hlim⟩ :=
        importarItens_spec env zip pasta'.id docs cofre' arq (g + 1)
      refine ⟨pasta', novosI, novosA, ns, ?_, ?_, ?_, hfacts.2.1, hfacts.1,
        by omega, hperm, hnd, ?_⟩
      · rw [hpI, hfacts.2.2.1]
      · rw [hiI, hfacts.2.2.2.1]
      · rw [haI, hfacts.2.2.2.2]
      · intro n hn
        have := hlim n hn
        omega

theorem perm_embaralha {α : Type} [DecidableEq α] (s t u v w x : List α) :
    (((s ++ t) ++ (u ++ v)) ++ (w ++ x)).Perm
      (((s ++ u) ++ w) ++ (t ++ (v ++ x))) := by
  refine List.perm_iff_count.mpr fun a => ?_
  simp only [List.count_append]
  omega

/-- Claim C8: every (successful) package import creates a brand-new
destination folder named after the original folder plus the fixed
" (importado)" marker, and gives every imported item and attachment a
freshly drawn identity; importing the same package twice yields two
distinct folders, and all identities in the final vault — the originals
and both imports' items and attachments — are pairwise distinct, with
every new identity coming from the UUID supply.  The hypotheses on
`env.uuid` idealize `Uuid::new_v4`: draws are injective and never collide
with an identity already in the vault. -/
theorem importar_pacote_isolamento (env : Ambiente) (zip : Zip)
    (conteudo : Bytes) (dados : DadosPasta) (cofre0 : Cofre)
    (arq0 : List (String × Bytes)) (g0 : Nat) (s1 s2 : SaidaImportacao)
    (hinj : Function.Injective env.uuid)
    (hfresco : ∀ n, env.uuid n ∉ usadosIds cofre0)
    (hnodup0 : (usadosIds cofre0).Nodup)
    (hdados : porNome zip "dados.json" = some conteudo)
    (hparse : env.parseDados conteudo = some dados)
    (hs1 : importar_pacote env (some zip) cofre0 arq0 g0 = s1)
    (hok1 : s1.erro = none)
    (hs2 : importar_pacote env (some zip) s1.cofre s1.arquivos s1.proximoUuid = s2)
    (hok2 : s2.erro = none) :
    ∃ pasta1 pasta2 : Pasta,
      s1.cofre.pastas = cofre0.pastas ++ [pasta1] ∧
      s2.cofre.pastas = s1.cofre.pastas ++ [pasta2] ∧
      pasta1.nome = dados.pasta_nome.getD "Pasta Importada" ++ " (importado)" ∧
      pasta2.nome = dados.pasta_nome.getD "Pasta Importada" ++ " (importado)" ∧
      pasta1.id ≠ pasta2.id ∧
      pasta1.id ∉ usadosIds cofre0 ∧
      pasta2.id ∉ usadosIds cofre0 ∧
      (usadosIds s2.cofre).Nodup ∧
      (∀ x, x ∈ usadosIds s2.cofre → x ∉ usadosIds cofre0 →
        ∃ n, g0 ≤ n ∧ x = env.uuid n) := by
  obtain ⟨pasta1, nI1, nA1, ns1, P1, I1, A1, hnome1, hid1, hg1, hperm1, hnd1,
    hlim1⟩ := importar_pacote_spec env zip conteudo dados cofre0 arq0 g0
      hdados hparse (hs1 ▸ hok1)
  rw [hs1] at P1 I1 A1 hg1 hlim1
  obtain ⟨pasta2, nI2, nA2, ns2, P2, I2, A2, hnome2, hid2, hg2, hperm2, hnd2,
    hlim2⟩ := importar_pacote_spec env zip conteudo dados s1.cofre s1.arquivos
      s1.proximoUuid hdados hparse (hs2 ▸ hok2)
  rw [hs2] at P2 I2 A2 hg2 hlim2
  have hchar1 : ∀ y, y ∈ [pasta1.id] ++ (nI1.map Item.id ++ nA1.map Anexo.id) →
      ∃ n, g0 ≤ n ∧ n < s1.proximoUuid ∧ y = env.uuid n := by
    intro y hy
    rcases List.mem_append.mp hy with hy | hy
    · rcases List.mem_singleton.mp hy with rfl
      exact ⟨g0, Nat.le_refl g0, hg1, hid1⟩
    · have := (hperm1.mem_iff).mp hy
      obtain ⟨n, hn, he⟩ := List.mem_map.mp this
      obtain ⟨h1, h2⟩ := hlim1 n hn
      exact ⟨n, by omega, h2, he.symm⟩
  have hchar2 : ∀ y, y ∈ [pasta2.id] ++ (nI2.map Item.id ++ nA2.map Anexo.id) →
      ∃ n, s1.proximoUuid ≤ n ∧ n < s2.proximoUuid ∧ y = env.uuid n := by
    intro y hy
    rcases List.mem_append.mp hy with hy | hy
    · rcases List.mem_singleton.mp hy with rfl
      exact ⟨s1.proximoUuid, Nat.le_refl _, hg2, hid2⟩
    · have := (hperm2.mem_iff).mp hy
      obtain ⟨n, hn, he⟩ := List.mem_map.mp this
      obtain ⟨h1, h2⟩ := hlim2 n hn
      exact ⟨n, by omega, h2, he.symm⟩
  have hnodupNovos1 : ([pasta1.id] ++ (nI1.map Item.id ++ nA1.map Anexo.id)).Nodup := by
    refine List.nodup_cons.mpr ⟨?_, ?_⟩
    · intro hmem
      have := (hperm1.mem_iff).mp hmem
      obtain ⟨n, hn, he⟩ := List.mem_map.mp this
      obtain ⟨h1, _⟩ := hlim1 n hn
      rw [hid1] at he
      have := hinj he
      omega
    · exact (hperm1.nodup_iff).mpr (hnd1.map hinj)
  have hnodupNovos2 : ([pasta2.id] ++ (nI2.map Item.id ++ nA2.map Anexo.id)).Nodup := by
    refine List.nodup_cons.mpr ⟨?_, ?_⟩
    · intro hmem
      have := (hperm2.mem_iff).mp hmem
      obtain ⟨n, hn, he⟩ := List.mem_map.mp this
      obtain ⟨h1, _⟩ := hlim2 n hn
      rw [hid2] at he
      have := hinj he
      omega
    · exact (hperm2.nodup_iff).mpr (hnd2.map hinj)
  have husados1 : (usadosIds s1.cofre).Perm
      (usadosIds cofre0 ++ ([pasta1.id] ++ (nI1.map Item.id ++ nA1.map Anexo.id))) := by
    rw [usadosIds, usadosIds, P1, I1, A1]
    simp only [List.map_append, List.map_cons, List.map_nil]
    exact perm_embaralha _ _ _ _ _ _
  have husados2 : (usadosIds s2.cofre).Perm
      (usadosIds s1.cofre ++ ([pasta2.id] ++ (nI2.map Item.id ++ nA2.map Anexo.id))) := by
    rw [usadosIds, usadosIds, P2, I2, A2]
    simp only [List.map_append, List.map_cons, List.map_nil]
    exact perm_embaralha _ _ _ _ _ _
  have husados12 : (usadosIds s2.cofre).Perm
      ((usadosIds cofre0 ++ ([pasta1.id] ++ (nI1.map Item.id ++ nA1.map Anexo.id))) ++
        ([pasta2.id] ++ (nI2.map Item.id ++ nA2.map Anexo.id))) :=
    husados2.trans (husados1.append_right _)
  refine ⟨pasta1, pasta2, P1, P2, hnome1, hnome2, ?_, ?_, ?_, ?_, ?_⟩
  · rw [hid1, hid2]
    intro he
    have := hinj he
    omega
  · rw [hid1]
    exact hfresco g0
  · rw [hid2]
    exact hfresco s1.proximoUuid
  · refine (husados12.nodup_iff).mpr ?_
    refine List.Nodup.append (List.Nodup.append hnodup0 hnodupNovos1 ?_)
      hnodupNovos2 ?_
    · intro a ha ha'
      obtain ⟨n, _, _, rfl⟩ := hchar1 a ha'
      exact hfresco n ha
    · intro a ha ha'
      obtain ⟨m, hm1, hm2, hem⟩ := hchar2 a ha'
      rcases List.mem_append.mp ha with h | h
      · rw [hem] at h
        exact hfresco m h
      · obtain ⟨n, _, hn2, hen⟩ := hchar1 a h
        rw [hem] at hen
        have := hinj hen
        omega
  · intro y hy hy0
    have := (husados12.mem_iff).mp hy
    rcases List.mem_append.mp this with h | h
    · rcases List.mem_append.mp h with h' | h'
      · exact absurd h' hy0
      · obtain ⟨n, hn1, _, hen⟩ := hchar1 y h'
        exact ⟨n, hn1, hen⟩
    · obtain ⟨n, hn1, _, hen⟩ := hchar2 y h
      exact ⟨n, by omega, hen⟩

theorem uuidEx_injetivo (m : Option ManifestoBackup) (d : Option DadosPasta) :
    Function.Injective (ambienteEx m d).uuid := by
  intro a b h
  have h' := congrArg (fun s => s.data.length) h
  simpa [ambienteEx] using h'

/-- The first import of `zipPacote` into the empty vault. -/
def importacao1 : SaidaImportacao :=
  importar_pacote (ambienteEx none (some dadosEx)) (some zipPacote)
    cofreVazio [] 0

/-- The second import of the same `zipPacote`, continuing from the first. -/
def importacao2 : SaidaImportacao :=
  importar_pacote (ambienteEx none (some dadosEx)) (some zipPacote)
    importacao1.cofre importacao1.arquivos importacao1.proximoUuid

theorem importar_pacote_isolamento_witness :
    importacao1.erro = none ∧ importacao2.erro = none ∧
    (∃ pasta1 pasta2 : Pasta,
      importacao1.cofre.pastas = cofreVazio.pastas ++ [pasta1] ∧
      importacao2.cofre.pastas = importacao1.cofre.pastas ++ [pasta2] ∧
      pasta1.nome = dadosEx.pasta_nome.getD "Pasta Importada" ++ " (importado)" ∧
      pasta2.nome = dadosEx.pasta_nome.getD "Pasta Importada" ++ " (importado)" ∧
      pasta1.id ≠ pasta2.id ∧
      pasta1.id ∉ usadosIds cofreVazio ∧
      pasta2.id ∉ usadosIds cofreVazio ∧
      (usadosIds importacao2.cofre).Nodup ∧
      (∀ x, x ∈ usadosIds importacao2.cofre → x ∉ usadosIds cofreVazio →
        ∃ n, 0 ≤ n ∧ x = (ambienteEx none (some dadosEx)).uuid n)) :=
  ⟨by decide, by decide,
    importar_pacote_isolamento (ambienteEx none (some dadosEx)) zipPacote [7]
      dadosEx cofreVazio [] 0 importacao1 importacao2
      (uuidEx_injetivo none (some dadosEx))
      (fun n => by simp [usadosIds, cofreVazio])
      (by decide) rfl rfl rfl (by decide) rfl (by decide)⟩

end VaultCraft
